import Mathlib

/-!
The program weather-to-go-outside: time arithmetic and the forecast merger.

A shallow embedding of the core of `weather.go`:

* `time_to_string`, `add_hours`, `intInSlice`, `string_to_time`, `parse_datetime_s`
  (the hand-written calendar arithmetic on `MyTime`);
* `combine_weather_data` (the index-by-index merge of the CIVIL and METEO series).

Modelling conventions.

* A Go `string` is a sequence of bytes (`GoString`); slicing `x[a:b]` is byte slicing
  and aborts the program when `b` exceeds the length.
* A Go `int` has 64 bits: a value is an `Int` in the range of `is_int64`, and every
  arithmetic statement of `add_hours` (`+=`, `-=`) wraps around through `wrap64`.
* Go's `%` truncates towards zero: it is `Int.tmod`.
* A run that aborts (`log.Fatal`, a run-time panic) is a value of `Failure` inside `Except`.
* Loops are structural recursions on a fuel argument that the caller sets to a bound
  on the number of iterations (`hour_loop_eq` and `combine_loop_spec` show that the
  bound is enough).
-/

namespace Weather

/-! ## Strings -/

/-- A Go `string`: a sequence of bytes. -/
abbrev GoString := List UInt8

/-- The UTF-8 bytes of a literal. -/
def str (s : String) : GoString := s.toList.flatMap String.utf8EncodeChar

/-- The ways a run of the program can abort. -/
inductive Failure where
  | slice_bounds_out_of_range
  | index_out_of_range
  | fatal (msg : GoString)
  deriving DecidableEq, Repr

deriving instance DecidableEq for Except

/-- The slice expression `x[lo:hi]` on a string: it panics unless `lo ≤ hi ≤ len(x)`. -/
def slice (x : GoString) (lo hi : Nat) : Except Failure GoString :=
  if lo ≤ hi ∧ hi ≤ x.length then .ok ((x.drop lo).take (hi - lo))
  else .error .slice_bounds_out_of_range

/-! ## `strconv.Atoi` and `fmt.Sprintf("%0Nd")` (Go standard library) -/

/-- The digit loop of `strconv.Atoi` (`ch -= '0'; if ch > 9 { error }; n = n*10 + int(ch)`),
with the byte subtraction wrapping modulo 256. `none` is the syntax error. -/
def atoi_digits : GoString → Nat → Option Nat
  | [], n => some n
  | ch :: rest, n =>
    let d := (ch.toNat + 256 - 48) % 256
    if d > 9 then none else atoi_digits rest (n * 10 + d)

/-- The function `strconv.Atoi` on inputs shorter than 19 bytes (its fast path; the only
callers here pass 2 or 4 bytes): an optional sign, then at least one decimal digit.
The second component says whether an error is returned; the value is then `0`. -/
def Atoi (s : GoString) : Int × Bool :=
  match s with
  | [] => (0, true)
  | s0 :: tl =>
    let body := if s0 = 45 ∨ s0 = 43 then tl else s
    if body.length < 1 then (0, true)
    else
      match atoi_digits body 0 with
      | none => (0, true)
      | some n => (if s0 = 45 then -(n : Int) else (n : Int), false)

/-- The byte `'0' + d`. -/
def digit_byte (d : Nat) : UInt8 := UInt8.ofNat (48 + d)

/-- The digit loop of `fmt`'s integer formatting: least significant digit first,
written in front of what is already there. -/
def fmt_digits : Nat → Nat → GoString → GoString
  | 0, u, acc => digit_byte u :: acc
  | fuel + 1, u, acc =>
    if u ≥ 10 then fmt_digits fuel (u / 10) (digit_byte (u % 10) :: acc)
    else digit_byte u :: acc

/-- The verb `%0Nd` of `fmt.Sprintf` with `N = wid`: the decimal digits of `|v|`, padded
with zeros on the left to `wid` characters (one fewer when `v` is negative, leaving
room for the sign), then the sign. A wider number is printed in full. -/
def fmt_zero_pad (wid : Nat) (v : Int) : GoString :=
  let digits := fmt_digits v.natAbs v.natAbs []
  let prec := if v < 0 then wid - 1 else wid
  let padded := List.replicate (prec - digits.length) (48 : UInt8) ++ digits
  if v < 0 then (45 : UInt8) :: padded else padded

/-! ## `MyTime` -/

/-- The struct `MyTime`. -/
structure MyTime where
  Year : Int
  Month : Int
  Day : Int
  Hour : Int
  Minute : Int
  Second : Int
  deriving DecidableEq, Repr

/-- The function `time_to_string`: `Sprintf("%02d/%02d/%04d %02d:%02d:%02d", ...)`. -/
def time_to_string (t : MyTime) : GoString :=
  fmt_zero_pad 2 t.Month ++ [47] ++ fmt_zero_pad 2 t.Day ++ [47] ++ fmt_zero_pad 4 t.Year
    ++ [32] ++ fmt_zero_pad 2 t.Hour ++ [58] ++ fmt_zero_pad 2 t.Minute ++ [58]
    ++ fmt_zero_pad 2 t.Second

/-- The function `intInSlice`. -/
def intInSlice (a : Int) : List Int → Bool
  | [] => false
  | b :: rest => if b = a then true else intInSlice a rest

/-- The largest Go `int`, `2^63 - 1`. -/
def max_int64 : Int := 9223372036854775807

/-- A value of Go's 64-bit `int`. -/
def is_int64 (x : Int) : Prop := -9223372036854775808 ≤ x ∧ x ≤ 9223372036854775807

instance (x : Int) : Decidable (is_int64 x) := by unfold is_int64; infer_instance

/-- What a Go `int` addition or subtraction stores when its exact result is `x`: the
value congruent to `x` modulo `2^64` in the range `-2^63 .. 2^63 - 1`. -/
def wrap64 (x : Int) : Int :=
  (x + 9223372036854775808) % 18446744073709551616 - 9223372036854775808

/-- The loop `for t.Hour >= 24 { t.Hour -= 24; t.Day += 1 }` of `add_hours`. -/
def hour_loop : Nat → MyTime → MyTime
  | 0, t => t
  | fuel + 1, t =>
    if t.Hour ≥ 24 then
      hour_loop fuel { t with Hour := wrap64 (t.Hour - 24), Day := wrap64 (t.Day + 1) }
    else t

/-- The leap-year test as `add_hours` writes it, with Go's truncating `%`. -/
def leap_test (y : Int) : Bool :=
  decide (y.tmod 4 = 0) && (decide (y.tmod 100 ≠ 0) || decide (y.tmod 400 = 0))

/-- The statement `if t.Day > 31 { t.Day -= 31; t.Month += 1 }`. -/
def carry_31 (t : MyTime) : MyTime :=
  if t.Day > 31 then { t with Day := wrap64 (t.Day - 31), Month := wrap64 (t.Month + 1) }
  else t

/-- The statement `if intInSlice(t.Month, []int{4, 6, 9, 11}) && t.Day > 30 { ... }`. -/
def carry_30 (t : MyTime) : MyTime :=
  if intInSlice t.Month [4, 6, 9, 11] && decide (t.Day > 30) then
    { t with Day := wrap64 (t.Day - 30), Month := wrap64 (t.Month + 1) }
  else t

/-- The statement `if t.Month == 2 && t.Day > 29 && (leap year) { ... }`. -/
def carry_feb_leap (t : MyTime) : MyTime :=
  if t.Month = 2 ∧ t.Day > 29 ∧ leap_test t.Year = true then
    { t with Day := wrap64 (t.Day - 29), Month := wrap64 (t.Month + 1) }
  else t

/-- The statement `if t.Month == 2 && t.Day > 28 && !(leap year) { ... }`. -/
def carry_feb_common (t : MyTime) : MyTime :=
  if t.Month = 2 ∧ t.Day > 28 ∧ ¬ (leap_test t.Year = true) then
    { t with Day := wrap64 (t.Day - 28), Month := wrap64 (t.Month + 1) }
  else t

/-- The statement `if t.Month > 12 { t.Month -= 12; t.Year += 1 }`. -/
def carry_year (t : MyTime) : MyTime :=
  if t.Month > 12 then
    { t with Month := wrap64 (t.Month - 12), Year := wrap64 (t.Year + 1) }
  else t

/-- The function `add_hours`: the hours are added (64-bit addition), the loop runs,
then the five conditional statements in source order. Each loop iteration takes 24
off the hour, so as many iterations of fuel as the hour is large are more than the
loop can use. -/
def add_hours (t : MyTime) (hours : Int) : MyTime :=
  let t := { t with Hour := wrap64 (t.Hour + hours) }
  let t := hour_loop t.Hour.toNat t
  let t := carry_31 t
  let t := carry_30 t
  let t := carry_feb_leap t
  let t := carry_feb_common t
  let t := carry_year t
  t

/-- The function `string_to_time`: four fixed slices, each through `strconv.Atoi` with
the error discarded. A slice beyond the end of `x` panics. -/
def string_to_time (x : GoString) : Except Failure MyTime := do
  let year := (Atoi (← slice x 0 4)).1
  let month := (Atoi (← slice x 4 6)).1
  let day := (Atoi (← slice x 6 8)).1
  let hour := (Atoi (← slice x 8 10)).1
  return { Year := year, Month := month, Day := day, Hour := hour, Minute := 0, Second := 0 }

/-- The function `parse_datetime_s`: the same four slices, re-ordered as text. -/
def parse_datetime_s (x : GoString) : Except Failure GoString := do
  let year ← slice x 0 4
  let month ← slice x 4 6
  let day ← slice x 6 8
  let hour ← slice x 8 10
  return month ++ str "/" ++ day ++ str "/" ++ year ++ str " " ++ hour ++ str ":00:00"

/-! ## The forecast records -/

/-- A Go `float32`, carried as its IEEE-754 bit pattern: the merger only copies it. -/
structure float32 where
  bits : Nat
  deriving DecidableEq, Repr

/-- The struct `Wind10m`. -/
structure Wind10m where
  Direction : GoString
  Speed : Int
  deriving DecidableEq, Repr

/-- The struct `DataSeriesCivil`. -/
structure DataSeriesCivil where
  Timepoint : Int
  Cloudcover : Int
  Lifted_index : Int
  Prec_type : GoString
  Prec_amount : float32
  Temp2m : Int
  Rh2m : GoString
  Wind10m : Wind10m
  Weather : GoString
  deriving DecidableEq, Repr

/-- The struct `CivilForecast`. -/
structure CivilForecast where
  Product : GoString
  Init : GoString
  DataSeries : List DataSeriesCivil
  deriving DecidableEq, Repr

/-- The struct `RhProfile`. -/
structure RhProfile where
  Layer : GoString
  Rh : Int
  deriving DecidableEq, Repr

/-- The struct `WindProfile`. -/
structure WindProfile where
  Layer : GoString
  Direction : Int
  Speed : Int
  deriving DecidableEq, Repr

/-- The struct `DataSeriesMeteo`. -/
structure DataSeriesMeteo where
  Timepoint : Int
  Cloudcover : Int
  Highcloud : Int
  Midcloud : Int
  Lowcloud : Int
  Rh_profile : List RhProfile
  Wind_profile : List WindProfile
  Temp2m : Int
  Lifted_index : Int
  Rh2m : Int
  Msl_pressure : Int
  Wind10m : Wind10m
  Prec_type : GoString
  Prec_amount : float32
  Snow_depth : Int
  deriving DecidableEq, Repr

/-- The struct `MeteoForecast`. -/
structure MeteoForecast where
  Product : GoString
  Init : GoString
  DataSeries : List DataSeriesMeteo
  deriving DecidableEq, Repr

/-- The struct `Cloudprofile`. -/
structure Cloudprofile where
  Highcloud : Int
  Midcloud : Int
  Lowcloud : Int
  deriving DecidableEq, Repr

/-- The struct `DataSeriesWeather`. -/
structure DataSeriesWeather where
  Datetime : GoString
  Cloudcover : Int
  Cloudprofile : Cloudprofile
  Rh_profile : List RhProfile
  Wind_profile : List WindProfile
  Prec_type : GoString
  Prec_amount : float32
  Temp2m : Int
  Rh2m : GoString
  Lifted_index : Int
  Msl_pressure : Int
  Wind10m : Wind10m
  Snow_depth : Int
  Weather : GoString
  deriving DecidableEq, Repr

/-- The struct `WeatherForecast`. -/
structure WeatherForecast where
  Product : GoString
  Init : GoString
  DataSeries : List DataSeriesWeather
  deriving DecidableEq, Repr

/-- The zero value of `DataSeriesWeather`, which `make` fills the new slice with. -/
def DataSeriesWeather.zero : DataSeriesWeather :=
  { Datetime := [], Cloudcover := 0, Cloudprofile := ⟨0, 0, 0⟩, Rh_profile := [],
    Wind_profile := [], Prec_type := [], Prec_amount := ⟨0⟩, Temp2m := 0, Rh2m := [],
    Lifted_index := 0, Msl_pressure := 0, Wind10m := ⟨[], 0⟩, Snow_depth := 0,
    Weather := [] }

/-! ## The merger -/

/-- The body of the loop of `combine_weather_data` at index `i`: the record `data`
built from `meteo.DataSeries[i]` and `civil.DataSeries[i]`. -/
def combine_record (init_time : MyTime) (c : DataSeriesCivil) (m : DataSeriesMeteo) :
    DataSeriesWeather :=
  { Datetime := time_to_string (add_hours init_time m.Timepoint)
    Cloudcover := m.Cloudcover
    Cloudprofile := { Highcloud := m.Highcloud, Midcloud := m.Midcloud, Lowcloud := m.Lowcloud }
    Rh_profile := m.Rh_profile
    Wind_profile := m.Wind_profile
    Prec_type := m.Prec_type
    Prec_amount := m.Prec_amount
    Temp2m := m.Temp2m
    Rh2m := c.Rh2m
    Lifted_index := m.Lifted_index
    Msl_pressure := m.Msl_pressure
    Wind10m := m.Wind10m
    Snow_depth := m.Snow_depth
    Weather := c.Weather }

/-- The loop `for i := 0; i < len(meteo.DataSeries); i++ { ...; weather.DataSeries[i] = data }`
of `combine_weather_data`, from index `i` with `out` the slice built so far. An index
outside `meteo.DataSeries` or `civil.DataSeries` panics. -/
def combine_loop (civil : CivilForecast) (meteo : MeteoForecast) (init_time : MyTime) :
    Nat → Nat → List DataSeriesWeather → Except Failure (List DataSeriesWeather)
  | 0, _, out => .ok out
  | fuel + 1, i, out =>
    if i < meteo.DataSeries.length then
      match meteo.DataSeries[i]?, civil.DataSeries[i]? with
      | some m, some c =>
        combine_loop civil meteo init_time fuel (i + 1) (out.set i (combine_record init_time c m))
      | _, _ => .error .index_out_of_range
    else .ok out

/-- The function `combine_weather_data`. The initial time is parsed from `civil.Init`
before the lengths are compared; `log.Fatal` ends the run when they differ. The loop
runs `len(meteo.DataSeries)` times at most. -/
def combine_weather_data (civil : CivilForecast) (meteo : MeteoForecast) :
    Except Failure WeatherForecast := do
  let init_time ← string_to_time civil.Init
  if meteo.DataSeries.length ≠ civil.DataSeries.length then
    throw (.fatal (str "The METEO and CIVIL APIs returned different numbers of data points"))
  let series ← combine_loop civil meteo init_time meteo.DataSeries.length 0
    (List.replicate meteo.DataSeries.length DataSeriesWeather.zero)
  return { Product := str "Weather Forecast", Init := time_to_string init_time,
           DataSeries := series }

/-! ## The calendar, for comparison -/

/-- The Gregorian leap-year rule: divisible by 4, and not by 100 unless also by 400. -/
def is_leap_year (y : Int) : Prop := 4 ∣ y ∧ (¬ 100 ∣ y ∨ 400 ∣ y)

instance (y : Int) : Decidable (is_leap_year y) := by unfold is_leap_year; infer_instance

/-- The true length of month `m` of year `y` in the proleptic Gregorian calendar. -/
def days_in_month (y m : Int) : Int :=
  if m = 2 then (if is_leap_year y then 29 else 28)
  else if m = 4 ∨ m = 6 ∨ m = 9 ∨ m = 11 then 30
  else 31

/-- A valid calendar timestamp: a month of the year, a day of that month, an hour of the day. -/
def valid_time (t : MyTime) : Prop :=
  1 ≤ t.Month ∧ t.Month ≤ 12 ∧ 1 ≤ t.Day ∧ t.Day ≤ days_in_month t.Year t.Month ∧
    0 ≤ t.Hour ∧ t.Hour ≤ 23

instance (t : MyTime) : Decidable (valid_time t) := by unfold valid_time; infer_instance

/-- The calendar day after that of `t`, time of day unchanged. -/
def next_day (t : MyTime) : MyTime :=
  if t.Day < days_in_month t.Year t.Month then { t with Day := t.Day + 1 }
  else if t.Month < 12 then { t with Month := t.Month + 1, Day := 1 }
  else { t with Year := t.Year + 1, Month := 1, Day := 1 }

/-- The timestamp `h` hours after `t` by the calendar (`h ≥ 0`): the hours past
midnight are `(t.Hour + h) mod 24`, and the day moves on `(t.Hour + h) div 24` times. -/
def calendar_add_hours (t : MyTime) (h : Int) : MyTime :=
  next_day^[((t.Hour + h) / 24).toNat] { t with Hour := (t.Hour + h) % 24 }

/-! ## ASCII digits, for stating the parsing and formatting claims -/

/-- An ASCII decimal digit, `'0'` (48) to `'9'` (57). -/
def is_digit (c : UInt8) : Prop := 48 ≤ c.toNat ∧ c.toNat ≤ 57

instance (c : UInt8) : Decidable (is_digit c) := by unfold is_digit; infer_instance

/-- The number an ASCII decimal digit stands for. -/
def digit_value (c : UInt8) : Nat := c.toNat - 48

/-- Every byte of `s` is an ASCII decimal digit. -/
def all_digits (s : GoString) : Prop := ∀ c ∈ s, is_digit c

instance (s : GoString) : Decidable (all_digits s) := by unfold all_digits; infer_instance

/-- The bytes `s` are not a decimal number with an optional sign: `s` is empty, or is a
lone `'-'` (45) or `'+'` (43), or has a byte other than a leading sign that is not an
ASCII decimal digit. -/
def not_a_number : GoString → Prop
  | [] => True
  | c :: rest =>
    if c = 45 ∨ c = 43 then rest = [] ∨ ∃ d ∈ rest, ¬ is_digit d
    else ∃ d ∈ c :: rest, ¬ is_digit d

instance : (s : GoString) → Decidable (not_a_number s)
  | [] => isTrue trivial
  | c :: rest =>
    inferInstanceAs (Decidable (if c = 45 ∨ c = 43 then rest = [] ∨ ∃ d ∈ rest, ¬ is_digit d
      else ∃ d ∈ c :: rest, ¬ is_digit d))

/-- What `time_to_string (string_to_time s)` shows for one field, read off the bytes of
the field's slice (which has the width of the field, 2 or 4 bytes): the slice itself
when it is all ASCII digits; `'0'` followed by the digits when it is `'+'` (43)
followed by digits; the slice itself when it is `'-'` (45) followed by digits that
are not all `'0'`; zeros in every other case. -/
def render_field : GoString → GoString
  | [] => []
  | c :: rest =>
    if all_digits (c :: rest) then c :: rest
    else if c = 43 ∧ rest ≠ [] ∧ all_digits rest then 48 :: rest
    else if c = 45 ∧ rest ≠ [] ∧ all_digits rest ∧ (∃ d ∈ rest, d ≠ 48) then c :: rest
    else List.replicate (rest.length + 1) 48

/-! ## Sample forecasts -/

/-- A CIVIL record at relative offset `tp`. -/
def civil_record (tp : Int) : DataSeriesCivil :=
  { Timepoint := tp, Cloudcover := 9, Lifted_index := 2, Prec_type := str "rain",
    Prec_amount := ⟨1⟩, Temp2m := 21, Rh2m := str "78%", Wind10m := ⟨str "NE", 3⟩,
    Weather := str "lightrainday" }

/-- A METEO record at relative offset `tp`. -/
def meteo_record (tp : Int) : DataSeriesMeteo :=
  { Timepoint := tp, Cloudcover := 8, Highcloud := 1, Midcloud := 4, Lowcloud := 7,
    Rh_profile := [⟨str "950mb", 12⟩], Wind_profile := [⟨str "950mb", 45, 3⟩],
    Temp2m := 20, Lifted_index := 6, Rh2m := 11, Msl_pressure := 1014,
    Wind10m := ⟨str "60", 2⟩, Prec_type := str "none", Prec_amount := ⟨0⟩, Snow_depth := 0 }

/-- A CIVIL forecast initialised at `"2022111812"`, with offsets 3 and 6. -/
def civil_sample : CivilForecast :=
  { Product := str "civil", Init := str "2022111812",
    DataSeries := [civil_record 3, civil_record 6] }

/-- A METEO forecast with the same initial time and offsets as `civil_sample`. -/
def meteo_sample : MeteoForecast :=
  { Product := str "meteo", Init := str "2022111812",
    DataSeries := [meteo_record 3, meteo_record 6] }

/-- A METEO forecast initialised twelve hours after `civil_sample`, same offsets. -/
def meteo_later_init : MeteoForecast :=
  { Product := str "meteo", Init := str "2022111900",
    DataSeries := [meteo_record 3, meteo_record 6] }

/-- A METEO forecast whose second offset (14) differs from that of `civil_sample` (6). -/
def meteo_other_offsets : MeteoForecast :=
  { Product := str "meteo", Init := str "2022111812",
    DataSeries := [meteo_record 3, meteo_record 14] }

/-- A CIVIL forecast initialised at 12:00 on 30 April 2022, with offsets 24 and 48. -/
def civil_april : CivilForecast :=
  { Product := str "civil", Init := str "2022043012",
    DataSeries := [civil_record 24, civil_record 48] }

/-- A METEO forecast with the same initial time and offsets as `civil_april`. -/
def meteo_april : MeteoForecast :=
  { Product := str "meteo", Init := str "2022043012",
    DataSeries := [meteo_record 24, meteo_record 48] }

/-! ## 64-bit arithmetic -/

theorem wrap64_eq (x : Int) (h : -9223372036854775808 ≤ x ∧ x ≤ 9223372036854775807) :
    wrap64 x = x := by
  unfold wrap64
  omega

theorem wrap64_range (x : Int) :
    -9223372036854775808 ≤ wrap64 x ∧ wrap64 x ≤ 9223372036854775807 := by
  unfold wrap64
  omega

theorem wrap64_wrap64_add (a b : Int) : wrap64 (wrap64 a + b) = wrap64 (a + b) := by
  unfold wrap64
  omega

/-! ## The hour loop and the carry rules -/

/-- The hour loop on enough fuel, for an hour and a day that are Go values: the hour
loses 24 as often as it holds 24, and the day is incremented (64-bit) as often. -/
theorem hour_loop_eq (fuel : Nat) (t : MyTime) (hf : t.Hour ≤ fuel)
    (hH : t.Hour ≤ 9223372036854775807)
    (hd : -9223372036854775808 ≤ t.Day ∧ t.Day ≤ 9223372036854775807) :
    hour_loop fuel t =
      { t with Hour := t.Hour - 24 * ((t.Hour / 24).toNat : Int),
               Day := wrap64 (t.Day + ((t.Hour / 24).toNat : Int)) } := by
  induction fuel generalizing t with
  | zero =>
    have h0 : (t.Hour / 24).toNat = 0 := by omega
    simp [hour_loop, h0, wrap64_eq t.Day hd]
  | succ n ih =>
    unfold hour_loop
    by_cases h24 : t.Hour ≥ 24
    · rw [if_pos h24, wrap64_eq (t.Hour - 24) (by omega),
        ih _ (by simp only; omega) (by simp only; omega) (by simp only; exact wrap64_range _)]
      simp only [MyTime.mk.injEq, true_and, and_true]
      constructor
      · rw [wrap64_wrap64_add]
        congr 1
        omega
      · omega
    · have h0 : (t.Hour / 24).toNat = 0 := by omega
      rw [if_neg h24]
      simp [h0, wrap64_eq t.Day hd]

theorem hour_loop_fuel (fuel : Nat) (t : MyTime) (h0 : 0 ≤ t.Hour)
    (hH : t.Hour ≤ 9223372036854775807)
    (hd : -9223372036854775808 ≤ t.Day ∧ t.Day ≤ 9223372036854775807)
    (hf : t.Hour.toNat ≤ fuel) :
    hour_loop fuel t =
      { t with Hour := t.Hour % 24, Day := wrap64 (t.Day + t.Hour / 24) } := by
  rw [hour_loop_eq fuel t (by omega) hH hd]
  have hn : ((t.Hour / 24).toNat : Int) = t.Hour / 24 := by omega
  rw [hn]
  simp only [MyTime.mk.injEq, true_and, and_true]
  omega

/-- The hour loop keeps the year, the month, the minute and the second, and leaves a
day that is a Go value when it is given one. -/
theorem hour_loop_frame (fuel : Nat) (t : MyTime) :
    (hour_loop fuel t).Year = t.Year ∧ (hour_loop fuel t).Month = t.Month ∧
    (hour_loop fuel t).Minute = t.Minute ∧ (hour_loop fuel t).Second = t.Second ∧
    ((-9223372036854775808 ≤ t.Day ∧ t.Day ≤ 9223372036854775807) →
      -9223372036854775808 ≤ (hour_loop fuel t).Day ∧
        (hour_loop fuel t).Day ≤ 9223372036854775807) := by
  induction fuel generalizing t with
  | zero => exact ⟨rfl, rfl, rfl, rfl, fun h => h⟩
  | succ n ih =>
    unfold hour_loop
    by_cases h24 : t.Hour ≥ 24
    · rw [if_pos h24]
      obtain ⟨h1, h2, h3, h4, h5⟩ :=
        ih { t with Hour := wrap64 (t.Hour - 24), Day := wrap64 (t.Day + 1) }
      exact ⟨h1, h2, h3, h4, fun _ => h5 (wrap64_range _)⟩
    · rw [if_neg h24]
      exact ⟨rfl, rfl, rfl, rfl, fun h => h⟩

theorem leap_test_iff (y : Int) : leap_test y = true ↔ is_leap_year y := by
  unfold leap_test is_leap_year
  simp only [Bool.and_eq_true, Bool.or_eq_true, decide_eq_true_eq, ne_eq,
    ← Int.dvd_iff_tmod_eq_zero, decide_not, Bool.not_eq_true', decide_eq_false_iff_not]

theorem intInSlice_thirty (m : Int) :
    intInSlice m [4, 6, 9, 11] = true ↔ (m = 4 ∨ m = 6 ∨ m = 9 ∨ m = 11) := by
  simp only [intInSlice]
  constructor
  · intro h
    split_ifs at h <;> omega
  · intro h
    split_ifs <;> first | rfl | omega

theorem carry_31_mk (y m d hr mi se : Int) :
    carry_31 ⟨y, m, d, hr, mi, se⟩ =
      if 31 < d then ⟨y, wrap64 (m + 1), wrap64 (d - 31), hr, mi, se⟩
      else ⟨y, m, d, hr, mi, se⟩ := by
  simp [carry_31]

theorem carry_30_mk (y m d hr mi se : Int) :
    carry_30 ⟨y, m, d, hr, mi, se⟩ =
      if (m = 4 ∨ m = 6 ∨ m = 9 ∨ m = 11) ∧ 30 < d then
        ⟨y, wrap64 (m + 1), wrap64 (d - 30), hr, mi, se⟩
      else ⟨y, m, d, hr, mi, se⟩ := by
  simp only [carry_30, Bool.and_eq_true, intInSlice_thirty, decide_eq_true_eq, gt_iff_lt]

theorem carry_feb_leap_mk (y m d hr mi se : Int) :
    carry_feb_leap ⟨y, m, d, hr, mi, se⟩ =
      if m = 2 ∧ 29 < d ∧ is_leap_year y then
        ⟨y, wrap64 (m + 1), wrap64 (d - 29), hr, mi, se⟩
      else ⟨y, m, d, hr, mi, se⟩ := by
  simp only [carry_feb_leap, leap_test_iff, gt_iff_lt]

theorem carry_feb_common_mk (y m d hr mi se : Int) :
    carry_feb_common ⟨y, m, d, hr, mi, se⟩ =
      if m = 2 ∧ 28 < d ∧ ¬ is_leap_year y then
        ⟨y, wrap64 (m + 1), wrap64 (d - 28), hr, mi, se⟩
      else ⟨y, m, d, hr, mi, se⟩ := by
  simp only [carry_feb_common, leap_test_iff, gt_iff_lt]

theorem carry_year_mk (y m d hr mi se : Int) :
    carry_year ⟨y, m, d, hr, mi, se⟩ =
      if 12 < m then ⟨wrap64 (y + 1), wrap64 (m - 12), d, hr, mi, se⟩
      else ⟨y, m, d, hr, mi, se⟩ := by
  simp [carry_year]

/-- The function `add_hours` when the hour sum is non-negative and does not overflow:
the loop leaves the hour `mod 24` and carries `div 24` days (64-bit), and the five
conditional statements follow. -/
theorem add_hours_nonneg (t : MyTime) (h : Int) (h0 : 0 ≤ t.Hour + h)
    (h1 : t.Hour + h ≤ 9223372036854775807)
    (hd : -9223372036854775808 ≤ t.Day ∧ t.Day ≤ 9223372036854775807) :
    add_hours t h =
      carry_year (carry_feb_common (carry_feb_leap (carry_30 (carry_31
        { t with Hour := (t.Hour + h) % 24,
                 Day := wrap64 (t.Day + (t.Hour + h) / 24) })))) := by
  have hw : wrap64 (t.Hour + h) = t.Hour + h := wrap64_eq _ ⟨by omega, h1⟩
  have hl := hour_loop_fuel (t.Hour + h).toNat { t with Hour := t.Hour + h } h0 h1 hd
    (Nat.le_refl _)
  simp only at hl
  simp only [add_hours, hw, hl]

/-- The same when the day does not overflow either. -/
theorem add_hours_no_overflow (t : MyTime) (h : Int) (h0 : 0 ≤ t.Hour + h)
    (h1 : t.Hour + h ≤ 9223372036854775807) (hd0 : -9223372036854775808 ≤ t.Day)
    (hd1 : t.Day + (t.Hour + h) / 24 ≤ 9223372036854775807) :
    add_hours t h =
      carry_year (carry_feb_common (carry_feb_leap (carry_30 (carry_31
        { t with Hour := (t.Hour + h) % 24, Day := t.Day + (t.Hour + h) / 24 })))) := by
  rw [add_hours_nonneg t h h0 h1 ⟨hd0, by omega⟩, wrap64_eq _ ⟨by omega, hd1⟩]

theorem leap_test_eq (y : Int) :
    leap_test y = true ↔ (y.tmod 4 = 0 ∧ (y.tmod 100 ≠ 0 ∨ y.tmod 400 = 0)) := by
  simp [leap_test]

/-! ## Claims -/

/-- C9. The February carry of `add_hours` follows the leap-year predicate
`y % 4 == 0 && (y % 100 != 0 || y % 400 == 0)` (Go's `%`): one hour after 23:00 on
28 February of any year `y` is 29 February when the predicate holds and 1 March
otherwise; 2000 and 2024 give 29 February, 1900 and 2023 give 1 March. -/
theorem add_hours_february_leap_rule :
    (∀ y : Int, add_hours ⟨y, 2, 28, 23, 0, 0⟩ 1 =
      if y.tmod 4 = 0 ∧ (y.tmod 100 ≠ 0 ∨ y.tmod 400 = 0) then ⟨y, 2, 29, 0, 0, 0⟩
      else ⟨y, 3, 1, 0, 0, 0⟩) ∧
    add_hours ⟨2000, 2, 28, 23, 0, 0⟩ 1 = ⟨2000, 2, 29, 0, 0, 0⟩ ∧
    add_hours ⟨2024, 2, 28, 23, 0, 0⟩ 1 = ⟨2024, 2, 29, 0, 0, 0⟩ ∧
    add_hours ⟨1900, 2, 28, 23, 0, 0⟩ 1 = ⟨1900, 3, 1, 0, 0, 0⟩ ∧
    add_hours ⟨2023, 2, 28, 23, 0, 0⟩ 1 = ⟨2023, 3, 1, 0, 0, 0⟩ := by
  refine ⟨?_, by decide, by decide, by decide, by decide⟩
  intro y
  rw [add_hours_no_overflow _ _ (by norm_num) (by norm_num) (by norm_num) (by norm_num)]
  have e1 : wrap64 3 = 3 := by decide
  have e2 : wrap64 1 = 1 := by decide
  by_cases hl : is_leap_year y
  · rw [if_pos ((leap_test_eq y).1 ((leap_test_iff y).2 hl))]
    norm_num [carry_31_mk, carry_30_mk, carry_feb_leap_mk, carry_feb_common_mk,
      carry_year_mk, hl]
  · rw [if_neg (fun h => hl ((leap_test_iff y).1 ((leap_test_eq y).2 h)))]
    norm_num [carry_31_mk, carry_30_mk, carry_feb_leap_mk, carry_feb_common_mk,
      carry_year_mk, hl, e1, e2]

theorem iterate_next_day_within (k : Nat) (t : MyTime)
    (h : t.Day + k ≤ days_in_month t.Year t.Month) :
    next_day^[k] t = { t with Day := t.Day + k } := by
  induction k generalizing t with
  | zero => simp
  | succ n ih =>
    have h1 : t.Day < days_in_month t.Year t.Month := by push_cast at h; omega
    rw [Function.iterate_succ_apply, next_day, if_pos h1, ih]
    · simp only [MyTime.mk.injEq, true_and, and_true]
      push_cast; omega
    · simp only
      push_cast at h ⊢; omega

theorem iterate_next_day_rollover (k : Nat) (t : MyTime)
    (hd : t.Day ≤ days_in_month t.Year t.Month)
    (h : days_in_month t.Year t.Month < t.Day + k) :
    next_day^[k] t =
      next_day^[(t.Day + k - days_in_month t.Year t.Month - 1).toNat]
        (if t.Month < 12 then { t with Month := t.Month + 1, Day := 1 }
         else { t with Year := t.Year + 1, Month := 1, Day := 1 }) := by
  induction k generalizing t with
  | zero => simp at h; omega
  | succ n ih =>
    rw [Function.iterate_succ_apply]
    by_cases h1 : t.Day < days_in_month t.Year t.Month
    · rw [next_day, if_pos h1, ih]
      · simp only
        congr 2
        push_cast; omega
      · simp only; omega
      · simp only
        push_cast at h ⊢; omega
    · have he : t.Day = days_in_month t.Year t.Month := by omega
      have hz : (t.Day + ((n + 1 : Nat) : Int) - days_in_month t.Year t.Month - 1).toNat = n := by
        push_cast; omega
      rw [hz, next_day, if_neg h1]

theorem days_in_month_bounds (y m : Int) :
    28 ≤ days_in_month y m ∧ days_in_month y m ≤ 31 := by
  unfold days_in_month
  split_ifs <;> omega

/-- Up to 28 days on from a valid date, the calendar rolls over at most one month end. -/
theorem iterate_next_day_eq (k : Nat) (t : MyTime) (hk : k ≤ 28)
    (hd : t.Day ≤ days_in_month t.Year t.Month) :
    next_day^[k] t =
      if t.Day + k ≤ days_in_month t.Year t.Month then { t with Day := t.Day + k }
      else if t.Month < 12 then
        { t with Month := t.Month + 1, Day := t.Day + k - days_in_month t.Year t.Month }
      else
        { t with Year := t.Year + 1, Month := 1,
                 Day := t.Day + k - days_in_month t.Year t.Month } := by
  by_cases h1 : t.Day + k ≤ days_in_month t.Year t.Month
  · rw [if_pos h1, iterate_next_day_within k t h1]
  · rw [if_neg h1, iterate_next_day_rollover k t hd (by omega)]
    have hn : ((t.Day + k - days_in_month t.Year t.Month - 1).toNat : Int) =
        t.Day + k - days_in_month t.Year t.Month - 1 := by omega
    by_cases h12 : t.Month < 12
    · rw [if_pos h12, if_pos h12, iterate_next_day_within]
      · simp only [MyTime.mk.injEq, true_and, and_true]
        omega
      · have := days_in_month_bounds t.Year (t.Month + 1)
        simp only
        omega
    · rw [if_neg h12, if_neg h12, iterate_next_day_within]
      · simp only [MyTime.mk.injEq, true_and, and_true]
        omega
      · have := days_in_month_bounds (t.Year + 1) 1
        simp only
        omega

theorem days_in_month_thirty (y m : Int) (h : m = 4 ∨ m = 6 ∨ m = 9 ∨ m = 11) :
    days_in_month y m = 30 := by
  unfold days_in_month
  rw [if_neg (by omega), if_pos h]

theorem days_in_month_feb (y : Int) :
    days_in_month y 2 = if is_leap_year y then 29 else 28 := by
  simp [days_in_month]

theorem days_in_month_cases (y m : Int) :
    (m = 2 ∧ is_leap_year y ∧ days_in_month y m = 29) ∨
    (m = 2 ∧ ¬ is_leap_year y ∧ days_in_month y m = 28) ∨
    ((m = 4 ∨ m = 6 ∨ m = 9 ∨ m = 11) ∧ days_in_month y m = 30) ∨
    (m ≠ 2 ∧ ¬ (m = 4 ∨ m = 6 ∨ m = 9 ∨ m = 11) ∧ days_in_month y m = 31) := by
  unfold days_in_month
  by_cases h2 : m = 2
  · by_cases hl : is_leap_year y
    · left; simp [h2, hl]
    · right; left; simp [h2, hl]
  · by_cases h30 : m = 4 ∨ m = 6 ∨ m = 9 ∨ m = 11
    · right; right; left
      exact ⟨h30, by rw [if_neg h2, if_pos h30]⟩
    · right; right; right
      exact ⟨h2, h30, by rw [if_neg h2, if_neg h30]⟩

/-- The five conditional statements leave a date inside its month alone. -/
theorem carry_within_month (y m d hr mi se : Int) (hm12 : m ≤ 12)
    (hd : d ≤ days_in_month y m) :
    carry_year (carry_feb_common (carry_feb_leap (carry_30 (carry_31 ⟨y, m, d, hr, mi, se⟩)))) =
      ⟨y, m, d, hr, mi, se⟩ := by
  have hb := days_in_month_bounds y m
  have h30 : ¬ ((m = 4 ∨ m = 6 ∨ m = 9 ∨ m = 11) ∧ 30 < d) := by
    rintro ⟨h, hlt⟩
    rw [days_in_month_thirty y m h] at hd
    omega
  have hfl : ¬ (m = 2 ∧ 29 < d ∧ is_leap_year y) := by
    rintro ⟨h, hlt, hl⟩
    rw [h, days_in_month_feb, if_pos hl] at hd
    omega
  have hfc : ¬ (m = 2 ∧ 28 < d ∧ ¬ is_leap_year y) := by
    rintro ⟨h, hlt, hl⟩
    rw [h, days_in_month_feb, if_neg hl] at hd
    omega
  rw [carry_31_mk, if_neg (by omega), carry_30_mk, if_neg h30, carry_feb_leap_mk, if_neg hfl,
    carry_feb_common_mk, if_neg hfc, carry_year_mk, if_neg (by omega)]

/-- Past day 31 by at most 28 days, the 31-day statement alone fires (and the year
statement after December, with a 64-bit increment of the year), whatever the month. -/
theorem carry_over_31 (y m d hr mi se : Int) (hm1 : 1 ≤ m) (hm12 : m ≤ 12) (hd : 31 < d)
    (hd28 : d - 31 ≤ 28) :
    carry_year (carry_feb_common (carry_feb_leap (carry_30 (carry_31 ⟨y, m, d, hr, mi, se⟩)))) =
      if m < 12 then ⟨y, m + 1, d - 31, hr, mi, se⟩
      else ⟨wrap64 (y + 1), 1, d - 31, hr, mi, se⟩ := by
  rw [carry_31_mk, if_pos hd, wrap64_eq (m + 1) (by omega), wrap64_eq (d - 31) (by omega),
    carry_30_mk, if_neg (by omega), carry_feb_leap_mk, if_neg (by omega),
    carry_feb_common_mk, if_neg (by omega), carry_year_mk]
  by_cases h12 : m < 12
  · rw [if_neg (by omega), if_pos h12]
  · rw [if_pos (by omega), if_neg h12, wrap64_eq (m + 1 - 12) (by omega)]
    simp only [MyTime.mk.injEq, and_true, true_and]
    omega

/-- Day 31 of a 30-day month becomes day 1 of the next month. -/
theorem carry_out_of_30 (y m d hr mi se : Int) (hm : m = 4 ∨ m = 6 ∨ m = 9 ∨ m = 11)
    (hd : d = 31) :
    carry_year (carry_feb_common (carry_feb_leap (carry_30 (carry_31 ⟨y, m, d, hr, mi, se⟩)))) =
      ⟨y, m + 1, 1, hr, mi, se⟩ := by
  rw [carry_31_mk, if_neg (by omega), carry_30_mk, if_pos ⟨hm, by omega⟩,
    wrap64_eq (m + 1) (by omega), wrap64_eq (d - 30) (by omega), carry_feb_leap_mk,
    if_neg (by omega), carry_feb_common_mk, if_neg (by omega), carry_year_mk, if_neg (by omega)]
  simp only [MyTime.mk.injEq, and_true, true_and]
  omega

/-- Out of February by at most 31 days in all, the matching February statement fires. -/
theorem carry_out_of_feb (y d hr mi se : Int) (hd : days_in_month y 2 < d) (h31 : d ≤ 31) :
    carry_year (carry_feb_common (carry_feb_leap (carry_30 (carry_31 ⟨y, 2, d, hr, mi, se⟩)))) =
      ⟨y, 3, d - days_in_month y 2, hr, mi, se⟩ := by
  have e3 : wrap64 (2 + 1) = 3 := by decide
  rw [days_in_month_feb] at hd ⊢
  by_cases hl : is_leap_year y
  · rw [if_pos hl] at hd ⊢
    rw [carry_31_mk, if_neg (by omega), carry_30_mk, if_neg (by omega), carry_feb_leap_mk,
      if_pos ⟨rfl, hd, hl⟩, e3, wrap64_eq (d - 29) (by omega), carry_feb_common_mk,
      if_neg (by omega), carry_year_mk, if_neg (by omega)]
  · rw [if_neg hl] at hd ⊢
    rw [carry_31_mk, if_neg (by omega), carry_30_mk, if_neg (by omega), carry_feb_leap_mk,
      if_neg (fun h => hl h.2.2), carry_feb_common_mk, if_pos ⟨rfl, hd, hl⟩, e3,
      wrap64_eq (d - 28) (by omega), carry_year_mk, if_neg (by omega)]

/-- The five conditional statements keep the hour, the minute and the second. -/
theorem carry_frame (t : MyTime) :
    (carry_year (carry_feb_common (carry_feb_leap (carry_30 (carry_31 t))))).Hour = t.Hour ∧
    (carry_year (carry_feb_common (carry_feb_leap (carry_30 (carry_31 t))))).Minute =
      t.Minute ∧
    (carry_year (carry_feb_common (carry_feb_leap (carry_30 (carry_31 t))))).Second =
      t.Second := by
  obtain ⟨y, m, d, hr, mi, se⟩ := t
  simp only [carry_31_mk, carry_30_mk, carry_feb_leap_mk, carry_feb_common_mk, carry_year_mk,
    apply_ite carry_30, apply_ite carry_feb_leap, apply_ite carry_feb_common,
    apply_ite carry_year]
  split_ifs <;> simp

theorem add_hours_frame (t : MyTime) (h : Int) (h0 : 0 ≤ t.Hour + h)
    (h1 : t.Hour + h ≤ 9223372036854775807)
    (hd : -9223372036854775808 ≤ t.Day ∧ t.Day ≤ 9223372036854775807) :
    (add_hours t h).Hour = (t.Hour + h) % 24 ∧
    (add_hours t h).Minute = t.Minute ∧ (add_hours t h).Second = t.Second := by
  rw [add_hours_nonneg t h h0 h1 hd]
  exact carry_frame _

/-- C5, counterexample. At 23:00 on 31 December of the year `2^63 - 1` (a valid
timestamp in a 31-day month) one hour on, the year increment of `add_hours` wraps to
`-2^63`, where the calendar year is `2^63`. -/
theorem add_hours_agrees_with_calendar_counterexample :
    valid_time ⟨9223372036854775807, 12, 31, 23, 0, 0⟩ ∧
    days_in_month 9223372036854775807 12 = 31 ∧
    add_hours ⟨9223372036854775807, 12, 31, 23, 0, 0⟩ 1 =
      ⟨-9223372036854775808, 1, 1, 0, 0, 0⟩ ∧
    calendar_add_hours ⟨9223372036854775807, 12, 31, 23, 0, 0⟩ 1 =
      ⟨9223372036854775808, 1, 1, 0, 0, 0⟩ ∧
    add_hours ⟨9223372036854775807, 12, 31, 23, 0, 0⟩ 1 ≠
      calendar_add_hours ⟨9223372036854775807, 12, 31, 23, 0, 0⟩ 1 := by
  decide

/-- C5, amended. Inside the forecast window `add_hours` agrees with the calendar except
in the 30-day and February overflow cases, as long as the calendar year is a Go value:
for a valid timestamp `t` and `0 ≤ h ≤ 191`, with `d = t.Day + (t.Hour + h) / 24`, if
`t.Month` has 31 days or `d ≤ 31`, and the year of the calendar timestamp `h` hours
after `t` is a 64-bit integer, then `add_hours t h` is that calendar timestamp, with
hour `(t.Hour + h) mod 24` and minute and second unchanged. -/
theorem add_hours_agrees_with_calendar (t : MyTime) (h : Int) (hv : valid_time t)
    (h0 : 0 ≤ h) (h191 : h ≤ 191)
    (hc : days_in_month t.Year t.Month = 31 ∨ t.Day + (t.Hour + h) / 24 ≤ 31)
    (hrep : is_int64 (calendar_add_hours t h).Year) :
    add_hours t h = calendar_add_hours t h ∧
    (add_hours t h).Hour = (t.Hour + h) % 24 ∧
    (add_hours t h).Minute = t.Minute ∧ (add_hours t h).Second = t.Second := by
  obtain ⟨hm1, hm12, hd1, hdm, hh0, hh23⟩ := hv
  have hb := days_in_month_bounds t.Year t.Month
  obtain ⟨n, hn⟩ : ∃ n : Nat, (t.Hour + h) / 24 = n := ⟨((t.Hour + h) / 24).toNat, by omega⟩
  have hn8 : n ≤ 8 := by omega
  have hcal : calendar_add_hours t h =
      next_day^[n] { t with Hour := (t.Hour + h) % 24 } := by
    simp [calendar_add_hours, hn]
  refine ⟨?_, add_hours_frame t h (by omega) (by omega) ⟨by omega, by omega⟩⟩
  rw [hcal, iterate_next_day_eq n _ (by omega) (by simpa using hdm)] at hrep ⊢
  rw [add_hours_no_overflow t h (by omega) (by omega) (by omega) (by omega), hn]
  obtain ⟨y, m, d, hr, mi, se⟩ := t
  simp only at hm1 hm12 hd1 hdm hh0 hh23 hc hn hb hrep ⊢
  by_cases hin : d + n ≤ days_in_month y m
  · rw [if_pos hin, carry_within_month y m _ _ mi se hm12 hin]
  · rw [if_neg hin] at hrep ⊢
    rcases days_in_month_cases y m with ⟨h2, _, hdim⟩ | ⟨h2, _, hdim⟩ | ⟨h30, hdim⟩ | ⟨_, _, hdim⟩
    · subst h2
      rw [carry_out_of_feb y _ _ mi se (by omega) (by omega), if_pos (by omega)]
      norm_num
    · subst h2
      rw [carry_out_of_feb y _ _ mi se (by omega) (by omega), if_pos (by omega)]
      norm_num
    · rw [carry_out_of_30 y m _ _ mi se h30 (by omega), if_pos (by omega)]
      simp only [MyTime.mk.injEq, and_true, true_and]
      omega
    · rw [carry_over_31 y m _ _ mi se hm1 hm12 (by omega) (by omega), hdim]
      by_cases h12 : m < 12
      · rw [if_pos h12, if_pos h12]
      · rw [if_neg h12] at hrep ⊢
        simp only at hrep
        unfold is_int64 at hrep
        rw [if_neg h12, wrap64_eq (y + 1) hrep]

/-- Witness for C5, amended: the theorem at 12:00 on 18 November 2022 plus 5 hours,
which is 17:00 the same day. -/
theorem add_hours_agrees_with_calendar_witness :
    valid_time ⟨2022, 11, 18, 12, 0, 0⟩ ∧
    add_hours ⟨2022, 11, 18, 12, 0, 0⟩ 5 = calendar_add_hours ⟨2022, 11, 18, 12, 0, 0⟩ 5 ∧
    add_hours ⟨2022, 11, 18, 12, 0, 0⟩ 5 = ⟨2022, 11, 18, 17, 0, 0⟩ :=
  ⟨by decide,
   (add_hours_agrees_with_calendar ⟨2022, 11, 18, 12, 0, 0⟩ 5 (by decide) (by decide)
      (by decide) (by decide) (by decide)).1,
   by decide⟩

/-- C10, counterexample. In April with a non-negative hour and offset and a carried
day above 31, an hour sum or a day beyond `2^63 - 1` wraps around: from 01:00 on
30 April with offset `2^63 - 1` the hour becomes `-2^63` and nothing is carried, and
from 23:00 on day `2^63 - 1` of April with offset 1 the day becomes `-2^63`. -/
theorem add_hours_thirty_day_quirk_counterexample :
    (31 : Int) < 30 + (1 + 9223372036854775807) / 24 ∧
    add_hours ⟨2022, 4, 30, 1, 0, 0⟩ 9223372036854775807 =
      ⟨2022, 4, 30, -9223372036854775808, 0, 0⟩ ∧
    add_hours ⟨2022, 4, 30, 1, 0, 0⟩ 9223372036854775807 ≠
      ⟨2022, 4 + 1, 30 + (1 + 9223372036854775807) / 24 - 31,
        (1 + 9223372036854775807) % 24, 0, 0⟩ ∧
    (31 : Int) < 9223372036854775807 + (23 + 1) / 24 ∧
    add_hours ⟨2022, 4, 9223372036854775807, 23, 0, 0⟩ 1 =
      ⟨2022, 4, -9223372036854775808, 0, 0, 0⟩ ∧
    add_hours ⟨2022, 4, 9223372036854775807, 23, 0, 0⟩ 1 ≠
      ⟨2022, 4 + 1, 9223372036854775807 + (23 + 1) / 24 - 31, (23 + 1) % 24, 0, 0⟩ := by
  decide

/-- C10, amended. The 30-day-month quirk of `add_hours`, without 64-bit overflow: when
the month is April, June, September or November, the hour and the offset are
non-negative, `t.Hour + h` and the carried day `d = t.Day + (t.Hour + h) / 24` do not
exceed `2^63 - 1`, and `d` exceeds 31, the 31-day statement fires, the 30-day
statement does not fire after it, and the result is day `d - 31` of the next month;
for a valid `t` and `h ≤ 191` that is the day before the calendar date. -/
theorem add_hours_thirty_day_quirk (t : MyTime) (h : Int)
    (hm : t.Month = 4 ∨ t.Month = 6 ∨ t.Month = 9 ∨ t.Month = 11)
    (hH : 0 ≤ t.Hour) (hh : 0 ≤ h) (hd : 31 < t.Day + (t.Hour + h) / 24)
    (h1 : t.Hour + h ≤ max_int64) (hd1 : t.Day + (t.Hour + h) / 24 ≤ max_int64) :
    add_hours t h =
      ⟨t.Year, t.Month + 1, t.Day + (t.Hour + h) / 24 - 31, (t.Hour + h) % 24,
        t.Minute, t.Second⟩ ∧
    carry_31 { t with Hour := (t.Hour + h) % 24, Day := t.Day + (t.Hour + h) / 24 } =
      ⟨t.Year, t.Month + 1, t.Day + (t.Hour + h) / 24 - 31, (t.Hour + h) % 24,
        t.Minute, t.Second⟩ ∧
    carry_30 ⟨t.Year, t.Month + 1, t.Day + (t.Hour + h) / 24 - 31, (t.Hour + h) % 24,
        t.Minute, t.Second⟩ =
      ⟨t.Year, t.Month + 1, t.Day + (t.Hour + h) / 24 - 31, (t.Hour + h) % 24,
        t.Minute, t.Second⟩ ∧
    (valid_time t → h ≤ 191 →
      next_day (add_hours t h) = calendar_add_hours t h ∧
      add_hours t h ≠ calendar_add_hours t h) := by
  unfold max_int64 at h1 hd1
  have hadd : add_hours t h =
      ⟨t.Year, t.Month + 1, t.Day + (t.Hour + h) / 24 - 31, (t.Hour + h) % 24,
        t.Minute, t.Second⟩ := by
    rw [add_hours_no_overflow t h (by omega) h1 (by omega) hd1]
    obtain ⟨y, m, d, hr, mi, se⟩ := t
    simp only at hm hH hd h1 hd1 ⊢
    rw [carry_31_mk, if_pos hd, wrap64_eq (m + 1) (by omega), wrap64_eq _ ⟨by omega, by omega⟩,
      carry_30_mk, if_neg (by omega), carry_feb_leap_mk,
      if_neg (by omega), carry_feb_common_mk, if_neg (by omega), carry_year_mk,
      if_neg (by omega)]
  refine ⟨hadd, ?_, ?_, ?_⟩
  · obtain ⟨y, m, d, hr, mi, se⟩ := t
    simp only at hm hd hd1 ⊢
    rw [carry_31_mk, if_pos hd, wrap64_eq (m + 1) (by omega), wrap64_eq _ ⟨by omega, by omega⟩]
  · rw [carry_30_mk, if_neg (by omega)]
  · rintro ⟨hm1, hm12, hday1, hdm, hh0, hh23⟩ h191
    rw [days_in_month_thirty _ _ hm] at hdm
    obtain ⟨n, hn⟩ : ∃ n : Nat, (t.Hour + h) / 24 = n := ⟨((t.Hour + h) / 24).toNat, by omega⟩
    have hn8 : n ≤ 8 := by omega
    have hcal : calendar_add_hours t h =
        ⟨t.Year, t.Month + 1, t.Day + (t.Hour + h) / 24 - 30, (t.Hour + h) % 24,
          t.Minute, t.Second⟩ := by
      have h1 : calendar_add_hours t h = next_day^[n] { t with Hour := (t.Hour + h) % 24 } := by
        simp [calendar_add_hours, hn]
      rw [h1, iterate_next_day_eq n _ (by omega)
        (by simp only; rw [days_in_month_thirty _ _ hm]; omega)]
      simp only
      rw [days_in_month_thirty _ _ hm, if_neg (by omega), if_pos (by omega), hn]
    have h31 : days_in_month t.Year (t.Month + 1) = 31 := by
      rcases days_in_month_cases t.Year (t.Month + 1) with h | h | h | h <;> omega
    rw [hadd, hcal]
    constructor
    · rw [next_day, if_pos (by simp only; omega)]
      simp only [MyTime.mk.injEq, and_true, true_and]
      omega
    · simp only [ne_eq, MyTime.mk.injEq, and_true, true_and]
      omega

/-- Witness for C10, amended: 12:00 on 30 April 2022 plus 48 hours gives 1 May, where
the calendar gives 2 May. -/
theorem add_hours_thirty_day_quirk_witness :
    add_hours ⟨2022, 4, 30, 12, 0, 0⟩ 48 = ⟨2022, 5, 1, 12, 0, 0⟩ ∧
    calendar_add_hours ⟨2022, 4, 30, 12, 0, 0⟩ 48 = ⟨2022, 5, 2, 12, 0, 0⟩ ∧
    next_day (add_hours ⟨2022, 4, 30, 12, 0, 0⟩ 48) =
      calendar_add_hours ⟨2022, 4, 30, 12, 0, 0⟩ 48 :=
  ⟨(add_hours_thirty_day_quirk ⟨2022, 4, 30, 12, 0, 0⟩ 48 (by decide) (by decide) (by decide)
      (by decide) (by decide) (by decide)).1,
   by decide,
   ((add_hours_thirty_day_quirk ⟨2022, 4, 30, 12, 0, 0⟩ 48 (by decide) (by decide) (by decide)
      (by decide) (by decide) (by decide)).2.2.2 (by decide) (by decide)).1⟩

/-! ## Parsing and formatting -/

theorem ofNat_toNat_byte (c : UInt8) : UInt8.ofNat c.toNat = c := by
  apply UInt8.eq_of_toBitVec_eq
  simp [UInt8.ofNat, UInt8.toNat]

theorem digit_byte_digit_value (c : UInt8) (h : is_digit c) :
    digit_byte (digit_value c) = c := by
  unfold digit_byte digit_value
  have : 48 + (c.toNat - 48) = c.toNat := by unfold is_digit at h; omega
  rw [this, ofNat_toNat_byte]

theorem digit_value_lt (c : UInt8) (h : is_digit c) : digit_value c < 10 := by
  unfold digit_value; unfold is_digit at h; omega

theorem digit_not_sign (c : UInt8) (h : is_digit c) : ¬ (c = 45 ∨ c = 43) := by
  rintro (h1 | h1) <;> rw [h1] at h <;> exact absurd h (by decide)

theorem atoi_digits_cons (c : UInt8) (rest : GoString) (n : Nat) (h : is_digit c) :
    atoi_digits (c :: rest) n = atoi_digits rest (n * 10 + digit_value c) := by
  have h1 : (c.toNat + 256 - 48) % 256 = digit_value c := by
    unfold digit_value; unfold is_digit at h; omega
  have h2 := digit_value_lt c h
  simp only [atoi_digits, h1]
  rw [if_neg (by omega)]

theorem Atoi_two_digits (a b : UInt8) (ha : is_digit a) (hb : is_digit b) :
    Atoi [a, b] = (((10 * digit_value a + digit_value b : Nat) : Int), false) := by
  have hs := digit_not_sign a ha
  have h45 : a ≠ 45 := fun h => hs (Or.inl h)
  simp only [Atoi, if_neg hs, if_neg h45, List.length_cons, List.length_nil]
  rw [if_neg (by omega), atoi_digits_cons _ _ _ ha, atoi_digits_cons _ _ _ hb, atoi_digits]
  simp only [Prod.mk.injEq, and_true, Nat.cast_inj]
  omega

theorem Atoi_four_digits (a b c d : UInt8) (ha : is_digit a) (hb : is_digit b)
    (hc : is_digit c) (hd : is_digit d) :
    Atoi [a, b, c, d] =
      (((1000 * digit_value a + 100 * digit_value b + 10 * digit_value c + digit_value d : Nat)
        : Int), false) := by
  have hs := digit_not_sign a ha
  have h45 : a ≠ 45 := fun h => hs (Or.inl h)
  simp only [Atoi, if_neg hs, if_neg h45, List.length_cons, List.length_nil]
  rw [if_neg (by omega), atoi_digits_cons _ _ _ ha, atoi_digits_cons _ _ _ hb,
    atoi_digits_cons _ _ _ hc, atoi_digits_cons _ _ _ hd, atoi_digits]
  simp only [Prod.mk.injEq, and_true, Nat.cast_inj]
  omega

theorem fmt_digits_small (fuel u : Nat) (acc : GoString) (h : u < 10) :
    fmt_digits fuel u acc = digit_byte u :: acc := by
  cases fuel with
  | zero => rfl
  | succ k => rw [fmt_digits, if_neg (by omega)]

theorem fmt_digits_step (fuel u : Nat) (acc : GoString) (h : 10 ≤ u) :
    fmt_digits (fuel + 1) u acc = fmt_digits fuel (u / 10) (digit_byte (u % 10) :: acc) := by
  rw [fmt_digits, if_pos h]

theorem fmt_digits_two (n : Nat) (h : n < 100) (h10 : 10 ≤ n) :
    fmt_digits n n [] = [digit_byte (n / 10), digit_byte (n % 10)] := by
  obtain ⟨k, rfl⟩ : ∃ k, n = k + 1 := ⟨n - 1, by omega⟩
  rw [fmt_digits_step _ _ _ h10, fmt_digits_small _ _ _ (by omega)]

theorem fmt_zero_pad_two (n : Nat) (h : n < 100) :
    fmt_zero_pad 2 (n : Int) = [digit_byte (n / 10), digit_byte (n % 10)] := by
  have hneg : ¬ ((n : Int) < 0) := by omega
  simp only [fmt_zero_pad, if_neg hneg, Int.natAbs_ofNat]
  by_cases h10 : n < 10
  · rw [fmt_digits_small _ _ _ h10]
    have h0 : n / 10 = 0 := by omega
    have h1 : n % 10 = n := by omega
    rw [h0, h1]
    rfl
  · rw [fmt_digits_two n h (by omega)]
    rfl

theorem fmt_zero_pad_four (n : Nat) (h : n < 10000) :
    fmt_zero_pad 4 (n : Int) =
      [digit_byte (n / 1000), digit_byte (n / 100 % 10), digit_byte (n / 10 % 10),
        digit_byte (n % 10)] := by
  have hneg : ¬ ((n : Int) < 0) := by omega
  simp only [fmt_zero_pad, if_neg hneg, Int.natAbs_ofNat]
  by_cases h10 : n < 10
  · rw [fmt_digits_small _ _ _ h10]
    have h0 : n / 1000 = 0 := by omega
    have h1 : n / 100 % 10 = 0 := by omega
    have h2 : n / 10 % 10 = 0 := by omega
    have h3 : n % 10 = n := by omega
    rw [h0, h1, h2, h3]
    rfl
  · by_cases h100 : n < 100
    · rw [fmt_digits_two n h100 (by omega)]
      have h0 : n / 1000 = 0 := by omega
      have h1 : n / 100 % 10 = 0 := by omega
      have h2 : n / 10 % 10 = n / 10 := by omega
      rw [h0, h1, h2]
      rfl
    · by_cases h1000 : n < 1000
      · obtain ⟨k, rfl⟩ : ∃ k, n = k + 2 := ⟨n - 2, by omega⟩
        rw [fmt_digits_step _ _ _ (by omega), fmt_digits_step _ _ _ (by omega),
          fmt_digits_small _ _ _ (by omega)]
        have h0 : (k + 2) / 1000 = 0 := by omega
        have h1 : (k + 2) / 10 / 10 = (k + 2) / 100 % 10 := by omega
        rw [h0, h1]
        rfl
      · obtain ⟨k, rfl⟩ : ∃ k, n = k + 3 := ⟨n - 3, by omega⟩
        rw [fmt_digits_step _ _ _ (by omega), fmt_digits_step _ _ _ (by omega),
          fmt_digits_step _ _ _ (by omega), fmt_digits_small _ _ _ (by omega)]
        have h0 : (k + 3) / 10 / 10 / 10 = (k + 3) / 1000 := by omega
        have h1 : (k + 3) / 10 / 10 % 10 = (k + 3) / 100 % 10 := by omega
        rw [h0, h1]
        rfl

theorem fmt_zero_pad_two_digits (a b : UInt8) (ha : is_digit a) (hb : is_digit b) :
    fmt_zero_pad 2 ((10 * digit_value a + digit_value b : Nat) : Int) = [a, b] := by
  have h1 := digit_value_lt a ha
  have h2 := digit_value_lt b hb
  rw [fmt_zero_pad_two _ (by omega)]
  have e1 : (10 * digit_value a + digit_value b) / 10 = digit_value a := by omega
  have e2 : (10 * digit_value a + digit_value b) % 10 = digit_value b := by omega
  rw [e1, e2, digit_byte_digit_value a ha, digit_byte_digit_value b hb]

theorem fmt_zero_pad_four_digits (a b c d : UInt8) (ha : is_digit a) (hb : is_digit b)
    (hc : is_digit c) (hd : is_digit d) :
    fmt_zero_pad 4
      ((1000 * digit_value a + 100 * digit_value b + 10 * digit_value c + digit_value d : Nat)
        : Int) = [a, b, c, d] := by
  have h1 := digit_value_lt a ha
  have h2 := digit_value_lt b hb
  have h3 := digit_value_lt c hc
  have h4 := digit_value_lt d hd
  rw [fmt_zero_pad_four _ (by omega)]
  have e1 : (1000 * digit_value a + 100 * digit_value b + 10 * digit_value c + digit_value d)
      / 1000 = digit_value a := by omega
  have e2 : (1000 * digit_value a + 100 * digit_value b + 10 * digit_value c + digit_value d)
      / 100 % 10 = digit_value b := by omega
  have e3 : (1000 * digit_value a + 100 * digit_value b + 10 * digit_value c + digit_value d)
      / 10 % 10 = digit_value c := by omega
  have e4 : (1000 * digit_value a + 100 * digit_value b + 10 * digit_value c + digit_value d)
      % 10 = digit_value d := by omega
  rw [e1, e2, e3, e4, digit_byte_digit_value a ha, digit_byte_digit_value b hb,
    digit_byte_digit_value c hc, digit_byte_digit_value d hd]

theorem length_ten (x : GoString) (h : x.length = 10) :
    ∃ c0 c1 c2 c3 c4 c5 c6 c7 c8 c9, x = [c0, c1, c2, c3, c4, c5, c6, c7, c8, c9] := by
  match x, h with
  | [c0, c1, c2, c3, c4, c5, c6, c7, c8, c9], _ =>
    exact ⟨c0, c1, c2, c3, c4, c5, c6, c7, c8, c9, rfl⟩

theorem string_to_time_slices (c0 c1 c2 c3 c4 c5 c6 c7 c8 c9 : UInt8) (rest : GoString) :
    string_to_time (c0 :: c1 :: c2 :: c3 :: c4 :: c5 :: c6 :: c7 :: c8 :: c9 :: rest) =
      .ok { Year := (Atoi [c0, c1, c2, c3]).1, Month := (Atoi [c4, c5]).1,
            Day := (Atoi [c6, c7]).1, Hour := (Atoi [c8, c9]).1, Minute := 0, Second := 0 } := by
  have hle : ∀ k, k ≤ 10 → k ≤ (c0 :: c1 :: c2 :: c3 :: c4 :: c5 :: c6 :: c7 :: c8 :: c9 ::
      rest).length := by
    intro k hk
    simp only [List.length_cons]
    omega
  simp only [string_to_time, slice]
  rw [if_pos ⟨by omega, hle 4 (by omega)⟩, if_pos ⟨by omega, hle 6 (by omega)⟩,
    if_pos ⟨by omega, hle 8 (by omega)⟩, if_pos ⟨by omega, hle 10 (by omega)⟩]
  rfl

theorem string_to_time_of_digits (c0 c1 c2 c3 c4 c5 c6 c7 c8 c9 : UInt8)
    (hdig : ∀ c ∈ [c0, c1, c2, c3, c4, c5, c6, c7, c8, c9], is_digit c) :
    string_to_time [c0, c1, c2, c3, c4, c5, c6, c7, c8, c9] =
      .ok { Year := ((1000 * digit_value c0 + 100 * digit_value c1 + 10 * digit_value c2 +
                digit_value c3 : Nat) : Int),
            Month := ((10 * digit_value c4 + digit_value c5 : Nat) : Int),
            Day := ((10 * digit_value c6 + digit_value c7 : Nat) : Int),
            Hour := ((10 * digit_value c8 + digit_value c9 : Nat) : Int),
            Minute := 0, Second := 0 } := by
  have h0 := hdig c0 (by simp)
  have h1 := hdig c1 (by simp)
  have h2 := hdig c2 (by simp)
  have h3 := hdig c3 (by simp)
  have h4 := hdig c4 (by simp)
  have h5 := hdig c5 (by simp)
  have h6 := hdig c6 (by simp)
  have h7 := hdig c7 (by simp)
  have h8 := hdig c8 (by simp)
  have h9 := hdig c9 (by simp)
  rw [string_to_time_slices, Atoi_four_digits c0 c1 c2 c3 h0 h1 h2 h3,
    Atoi_two_digits c4 c5 h4 h5, Atoi_two_digits c6 c7 h6 h7, Atoi_two_digits c8 c9 h8 h9]

/-- C6. On a string of exactly 10 ASCII decimal digits `string_to_time` returns the
timestamp whose year is the decimal value of bytes 0-3, month that of bytes 4-5, day
that of bytes 6-7 and hour that of bytes 8-9, with minute and second zero; no range
is imposed on the fields. -/
theorem string_to_time_ten_digits (x : GoString) (hlen : x.length = 10)
    (hdig : ∀ c ∈ x, is_digit c) :
    string_to_time x =
      .ok { Year := ((1000 * digit_value (x.getD 0 0) + 100 * digit_value (x.getD 1 0) +
                10 * digit_value (x.getD 2 0) + digit_value (x.getD 3 0) : Nat) : Int),
            Month := ((10 * digit_value (x.getD 4 0) + digit_value (x.getD 5 0) : Nat) : Int),
            Day := ((10 * digit_value (x.getD 6 0) + digit_value (x.getD 7 0) : Nat) : Int),
            Hour := ((10 * digit_value (x.getD 8 0) + digit_value (x.getD 9 0) : Nat) : Int),
            Minute := 0, Second := 0 } := by
  obtain ⟨c0, c1, c2, c3, c4, c5, c6, c7, c8, c9, rfl⟩ := length_ten x hlen
  rw [string_to_time_of_digits c0 c1 c2 c3 c4 c5 c6 c7 c8 c9 hdig]
  rfl

/-- Witness for C6: `"2022111812"` parses to 2022-11-18 12:00:00, and `"0000139925"`
to month 13, day 99, hour 25 (no range validation). -/
theorem string_to_time_ten_digits_witness :
    string_to_time (str "2022111812") = .ok ⟨2022, 11, 18, 12, 0, 0⟩ ∧
    string_to_time (str "0000139925") = .ok ⟨0, 13, 99, 25, 0, 0⟩ :=
  ⟨string_to_time_ten_digits (str "2022111812") (by decide) (by decide),
   string_to_time_ten_digits (str "0000139925") (by decide) (by decide)⟩

/-- C7. For a timestamp with year in `[0, 9999]` and the other fields in `[0, 99]`,
`time_to_string` is exactly the 19 bytes `MM/DD/YYYY HH:MM:SS`, each field zero-padded
to its width (`'/'` is 47, `' '` is 32, `':'` is 58). -/
theorem time_to_string_format (t : MyTime)
    (hy : 0 ≤ t.Year ∧ t.Year ≤ 9999) (hmo : 0 ≤ t.Month ∧ t.Month ≤ 99)
    (hd : 0 ≤ t.Day ∧ t.Day ≤ 99) (hh : 0 ≤ t.Hour ∧ t.Hour ≤ 99)
    (hmi : 0 ≤ t.Minute ∧ t.Minute ≤ 99) (hs : 0 ≤ t.Second ∧ t.Second ≤ 99) :
    time_to_string t =
      [digit_byte (t.Month.toNat / 10), digit_byte (t.Month.toNat % 10), 47,
       digit_byte (t.Day.toNat / 10), digit_byte (t.Day.toNat % 10), 47,
       digit_byte (t.Year.toNat / 1000), digit_byte (t.Year.toNat / 100 % 10),
       digit_byte (t.Year.toNat / 10 % 10), digit_byte (t.Year.toNat % 10), 32,
       digit_byte (t.Hour.toNat / 10), digit_byte (t.Hour.toNat % 10), 58,
       digit_byte (t.Minute.toNat / 10), digit_byte (t.Minute.toNat % 10), 58,
       digit_byte (t.Second.toNat / 10), digit_byte (t.Second.toNat % 10)] ∧
    (time_to_string t).length = 19 := by
  have key : ∀ v : Int, 0 ≤ v → v ≤ 99 →
      fmt_zero_pad 2 v = [digit_byte (v.toNat / 10), digit_byte (v.toNat % 10)] := by
    intro v h0 h99
    obtain ⟨n, rfl⟩ := Int.eq_ofNat_of_zero_le h0
    rw [fmt_zero_pad_two _ (by omega), Int.toNat_ofNat]
  have key4 : ∀ v : Int, 0 ≤ v → v ≤ 9999 → fmt_zero_pad 4 v =
      [digit_byte (v.toNat / 1000), digit_byte (v.toNat / 100 % 10),
       digit_byte (v.toNat / 10 % 10), digit_byte (v.toNat % 10)] := by
    intro v h0 h99
    obtain ⟨n, rfl⟩ := Int.eq_ofNat_of_zero_le h0
    rw [fmt_zero_pad_four _ (by omega), Int.toNat_ofNat]
  unfold time_to_string
  rw [key _ hmo.1 hmo.2, key _ hd.1 hd.2, key4 _ hy.1 hy.2, key _ hh.1 hh.2,
    key _ hmi.1 hmi.2, key _ hs.1 hs.2]
  exact ⟨rfl, rfl⟩

/-- Witness for C7: 2022-11-18 12:00:00 is rendered `"11/18/2022 12:00:00"`. -/
theorem time_to_string_format_witness :
    time_to_string ⟨2022, 11, 18, 12, 0, 0⟩ = str "11/18/2022 12:00:00" ∧
    (time_to_string ⟨2022, 11, 18, 12, 0, 0⟩).length = 19 :=
  ⟨(time_to_string_format ⟨2022, 11, 18, 12, 0, 0⟩ (by decide) (by decide) (by decide)
      (by decide) (by decide) (by decide)).1,
   (time_to_string_format ⟨2022, 11, 18, 12, 0, 0⟩ (by decide) (by decide) (by decide)
      (by decide) (by decide) (by decide)).2⟩

/-- C8. Round trip on a string of exactly 10 ASCII decimal digits: parsing with
`string_to_time` and formatting with `time_to_string` gives bytes 4-5, `"/"`, bytes 6-7,
`"/"`, bytes 0-3, `" "`, bytes 8-9, `":00:00"`, which is what `parse_datetime_s` returns. -/
theorem round_trip_ten_digits (x : GoString) (hlen : x.length = 10)
    (hdig : ∀ c ∈ x, is_digit c) :
    ∃ t, string_to_time x = .ok t ∧
      time_to_string t =
        (x.drop 4).take 2 ++ str "/" ++ (x.drop 6).take 2 ++ str "/" ++ x.take 4 ++ str " " ++
          (x.drop 8).take 2 ++ str ":00:00" ∧
      parse_datetime_s x = .ok (time_to_string t) := by
  obtain ⟨c0, c1, c2, c3, c4, c5, c6, c7, c8, c9, rfl⟩ := length_ten x hlen
  have h0 := hdig c0 (by simp)
  have h1 := hdig c1 (by simp)
  have h2 := hdig c2 (by simp)
  have h3 := hdig c3 (by simp)
  have h4 := hdig c4 (by simp)
  have h5 := hdig c5 (by simp)
  have h6 := hdig c6 (by simp)
  have h7 := hdig c7 (by simp)
  have h8 := hdig c8 (by simp)
  have h9 := hdig c9 (by simp)
  refine ⟨_, string_to_time_of_digits c0 c1 c2 c3 c4 c5 c6 c7 c8 c9 hdig, ?_⟩
  have e : time_to_string
      { Year := ((1000 * digit_value c0 + 100 * digit_value c1 + 10 * digit_value c2 +
                digit_value c3 : Nat) : Int),
        Month := ((10 * digit_value c4 + digit_value c5 : Nat) : Int),
        Day := ((10 * digit_value c6 + digit_value c7 : Nat) : Int),
        Hour := ((10 * digit_value c8 + digit_value c9 : Nat) : Int),
        Minute := 0, Second := 0 } =
      [c4, c5, 47, c6, c7, 47, c0, c1, c2, c3, 32, c8, c9, 58, 48, 48, 58, 48, 48] := by
    simp only [time_to_string]
    rw [fmt_zero_pad_two_digits c4 c5 h4 h5, fmt_zero_pad_two_digits c6 c7 h6 h7,
      fmt_zero_pad_four_digits c0 c1 c2 c3 h0 h1 h2 h3, fmt_zero_pad_two_digits c8 c9 h8 h9]
    rfl
  rw [e]
  exact ⟨rfl, rfl⟩

/-- Witness for C8: `"2022010100"` round-trips to `"01/01/2022 00:00:00"`. -/
theorem round_trip_ten_digits_witness :
    ∃ t, string_to_time (str "2022010100") = .ok t ∧
      time_to_string t = str "01/01/2022 00:00:00" ∧
      parse_datetime_s (str "2022010100") = .ok (str "01/01/2022 00:00:00") := by
  obtain ⟨t, h1, h2, h3⟩ := round_trip_ten_digits (str "2022010100") (by decide) (by decide)
  have h4 : time_to_string t = str "01/01/2022 00:00:00" := by rw [h2]; decide
  exact ⟨t, h1, h4, by rw [h3, h4]⟩

/-! ## The merger -/

/-- The loop from index `i`, given equal lengths and a slice `out` of that length: it
ends normally, keeps the length and the entries below `i`, and puts at every index from
`i` on the record built from the two inputs at that index. -/
theorem combine_loop_spec (civil : CivilForecast) (meteo : MeteoForecast) (t0 : MyTime)
    (hlen : meteo.DataSeries.length = civil.DataSeries.length) :
    ∀ (fuel i : Nat) (out : List DataSeriesWeather),
      i + fuel = meteo.DataSeries.length → out.length = meteo.DataSeries.length →
      ∃ res, combine_loop civil meteo t0 fuel i out = .ok res ∧
        res.length = meteo.DataSeries.length ∧
        (∀ j, j < i → res[j]? = out[j]?) ∧
        (∀ j, i ≤ j → j < meteo.DataSeries.length →
          ∃ c m, civil.DataSeries[j]? = some c ∧ meteo.DataSeries[j]? = some m ∧
            res[j]? = some (combine_record t0 c m)) := by
  intro fuel
  induction fuel with
  | zero =>
    intro i out hi ho
    exact ⟨out, rfl, ho, fun _ _ => rfl, fun j h1 h2 => by omega⟩
  | succ n ih =>
    intro i out hi ho
    have him : i < meteo.DataSeries.length := by omega
    have hic : i < civil.DataSeries.length := by omega
    have hm : meteo.DataSeries[i]? = some meteo.DataSeries[i] := List.getElem?_eq_getElem him
    have hc : civil.DataSeries[i]? = some civil.DataSeries[i] := List.getElem?_eq_getElem hic
    obtain ⟨res, hres, hl, hlow, hhigh⟩ :=
      ih (i + 1) (out.set i (combine_record t0 civil.DataSeries[i] meteo.DataSeries[i]))
        (by omega) (by rw [List.length_set]; exact ho)
    refine ⟨res, ?_, hl, ?_, ?_⟩
    · rw [combine_loop, if_pos him, hm, hc]
      exact hres
    · intro j hj
      rw [hlow j (by omega), List.getElem?_set_ne (by omega)]
    · intro j hij hj
      by_cases hji : j = i
      · subst hji
        refine ⟨_, _, hc, hm, ?_⟩
        rw [hlow j (by omega), List.getElem?_set_self (by omega)]
      · exact hhigh j (by omega) hj

/-- The merger on equal lengths, once the initial time has been parsed. -/
theorem combine_weather_data_ok (civil : CivilForecast) (meteo : MeteoForecast) (t0 : MyTime)
    (ht : string_to_time civil.Init = .ok t0)
    (hlen : meteo.DataSeries.length = civil.DataSeries.length) :
    ∃ w, combine_weather_data civil meteo = .ok w ∧
      w.Product = str "Weather Forecast" ∧ w.Init = time_to_string t0 ∧
      w.DataSeries.length = meteo.DataSeries.length ∧
      ∀ j, j < meteo.DataSeries.length →
        ∃ c m, civil.DataSeries[j]? = some c ∧ meteo.DataSeries[j]? = some m ∧
          w.DataSeries[j]? = some (combine_record t0 c m) := by
  obtain ⟨res, hres, hl, _, hhigh⟩ :=
    combine_loop_spec civil meteo t0 hlen meteo.DataSeries.length 0
      (List.replicate meteo.DataSeries.length DataSeriesWeather.zero) (by omega)
      (List.length_replicate _ _)
  refine ⟨⟨str "Weather Forecast", time_to_string t0, res⟩, ?_, rfl, rfl, hl,
    fun j hj => hhigh j (by omega) hj⟩
  simp only [combine_weather_data, ht, bind, Except.bind, ne_eq, hlen, not_true_eq_false,
    if_false, pure, Except.pure]
  rw [hlen] at hres
  rw [hres]

/-- The merger on different lengths never returns a forecast; once the initial time has
been parsed it is `log.Fatal` that ends the run. -/
theorem combine_weather_data_mismatch (civil : CivilForecast) (meteo : MeteoForecast)
    (hlen : meteo.DataSeries.length ≠ civil.DataSeries.length) :
    (∀ w, combine_weather_data civil meteo ≠ .ok w) ∧
    (∀ t0, string_to_time civil.Init = .ok t0 →
      combine_weather_data civil meteo = .error (.fatal
        (str "The METEO and CIVIL APIs returned different numbers of data points"))) := by
  have h2 : ∀ t0, string_to_time civil.Init = .ok t0 →
      combine_weather_data civil meteo = .error (.fatal
        (str "The METEO and CIVIL APIs returned different numbers of data points")) := by
    intro t0 ht
    simp only [combine_weather_data, ht, bind, Except.bind, ne_eq, hlen, not_false_eq_true,
      if_true, throw, throwThe, MonadExceptOf.throw]
  refine ⟨?_, h2⟩
  intro w hw
  cases ht : string_to_time civil.Init with
  | error e =>
    simp only [combine_weather_data, ht, bind, Except.bind] at hw
    cases hw
  | ok t0 =>
    rw [h2 t0 ht] at hw
    cases hw

theorem string_to_time_ok (x : GoString) (h : 10 ≤ x.length) :
    ∃ t, string_to_time x = .ok t := by
  match x, h with
  | c0 :: c1 :: c2 :: c3 :: c4 :: c5 :: c6 :: c7 :: c8 :: c9 :: rest, _ =>
    exact ⟨_, string_to_time_slices c0 c1 c2 c3 c4 c5 c6 c7 c8 c9 rest⟩

/-- C1. On series of equal length `N` with a shared initial time of 10 digits,
`combine_weather_data` returns a forecast labelled `"Weather Forecast"` whose series has
length `N` and, at every index `i < N`, the date-time of the initial time plus the METEO
offset, `Rh2m` and `Weather` from the CIVIL record, and every other field from the
METEO record. -/
theorem combine_weather_data_fields (civil : CivilForecast) (meteo : MeteoForecast) (N : Nat)
    (hc : civil.DataSeries.length = N) (hm : meteo.DataSeries.length = N)
    (hinit : civil.Init.length = 10 ∧ ∀ c ∈ civil.Init, is_digit c)
    (heq : civil.Init = meteo.Init) :
    ∃ t0 w, string_to_time meteo.Init = .ok t0 ∧
      combine_weather_data civil meteo = .ok w ∧
      w.Product = str "Weather Forecast" ∧ w.Init = time_to_string t0 ∧
      w.DataSeries.length = N ∧
      ∀ i, i < N →
        ∃ c m r, civil.DataSeries[i]? = some c ∧ meteo.DataSeries[i]? = some m ∧
          w.DataSeries[i]? = some r ∧
          r.Datetime = time_to_string (add_hours t0 m.Timepoint) ∧
          r.Rh2m = c.Rh2m ∧ r.Weather = c.Weather ∧
          r.Cloudcover = m.Cloudcover ∧
          r.Cloudprofile.Highcloud = m.Highcloud ∧ r.Cloudprofile.Midcloud = m.Midcloud ∧
          r.Cloudprofile.Lowcloud = m.Lowcloud ∧
          r.Rh_profile = m.Rh_profile ∧ r.Wind_profile = m.Wind_profile ∧
          r.Prec_type = m.Prec_type ∧ r.Prec_amount = m.Prec_amount ∧
          r.Temp2m = m.Temp2m ∧ r.Lifted_index = m.Lifted_index ∧
          r.Msl_pressure = m.Msl_pressure ∧ r.Wind10m = m.Wind10m ∧
          r.Snow_depth = m.Snow_depth := by
  obtain ⟨t0, ht⟩ := string_to_time_ok civil.Init (by omega)
  obtain ⟨w, hw, hp, hi, hl, hrec⟩ := combine_weather_data_ok civil meteo t0 ht (by omega)
  refine ⟨t0, w, heq ▸ ht, hw, hp, hi, by omega, ?_⟩
  intro i hiN
  obtain ⟨c, m, h1, h2, h3⟩ := hrec i (by omega)
  exact ⟨c, m, _, h1, h2, h3, rfl, rfl, rfl, rfl, rfl, rfl, rfl, rfl, rfl, rfl, rfl, rfl, rfl,
    rfl, rfl, rfl⟩

/-- Witness for C1: the theorem at `civil_sample` and `meteo_sample` (`N = 2`, initial
time `"2022111812"`), whose merged date-times are 15:00 and 18:00 on 18 November 2022. -/
theorem combine_weather_data_fields_witness :
    (∃ t0 w, string_to_time meteo_sample.Init = .ok t0 ∧
      combine_weather_data civil_sample meteo_sample = .ok w ∧
      w.Product = str "Weather Forecast" ∧ w.Init = time_to_string t0 ∧
      w.DataSeries.length = 2) ∧
    (combine_weather_data civil_sample meteo_sample).map
        (fun w => w.DataSeries.map (fun r => r.Datetime)) =
      .ok [str "11/18/2022 15:00:00", str "11/18/2022 18:00:00"] := by
  obtain ⟨t0, w, h1, h2, h3, h4, h5, _⟩ :=
    combine_weather_data_fields civil_sample meteo_sample 2 (by decide) (by decide)
      (by decide) (by decide)
  exact ⟨⟨t0, w, h1, h2, h3, h4, h5⟩, by decide⟩

/-- C2. `combine_weather_data` returns no forecast when the two series differ in
length; given a `civil.Init` of at least 10 bytes, it fails if and only if the lengths
differ, the failure is the one of `log.Fatal`, and on equal lengths it returns a
forecast with a series of that length. -/
theorem combine_weather_data_fails_iff (civil : CivilForecast) (meteo : MeteoForecast) :
    (civil.DataSeries.length ≠ meteo.DataSeries.length →
      ∀ w, combine_weather_data civil meteo ≠ .ok w) ∧
    (10 ≤ civil.Init.length →
      ((∃ e, combine_weather_data civil meteo = .error e) ↔
        civil.DataSeries.length ≠ meteo.DataSeries.length) ∧
      (civil.DataSeries.length ≠ meteo.DataSeries.length →
        combine_weather_data civil meteo = .error (.fatal
          (str "The METEO and CIVIL APIs returned different numbers of data points"))) ∧
      (civil.DataSeries.length = meteo.DataSeries.length →
        ∃ w, combine_weather_data civil meteo = .ok w ∧
          w.DataSeries.length = civil.DataSeries.length)) := by
  refine ⟨fun h => (combine_weather_data_mismatch civil meteo (Ne.symm h)).1, ?_⟩
  intro hinit
  obtain ⟨t0, ht⟩ := string_to_time_ok civil.Init hinit
  have hfatal : civil.DataSeries.length ≠ meteo.DataSeries.length →
      combine_weather_data civil meteo = .error (.fatal
        (str "The METEO and CIVIL APIs returned different numbers of data points")) :=
    fun h => (combine_weather_data_mismatch civil meteo (Ne.symm h)).2 t0 ht
  have hok : civil.DataSeries.length = meteo.DataSeries.length →
      ∃ w, combine_weather_data civil meteo = .ok w ∧
        w.DataSeries.length = civil.DataSeries.length := by
    intro h
    obtain ⟨w, hw, _, _, hl, _⟩ := combine_weather_data_ok civil meteo t0 ht h.symm
    exact ⟨w, hw, by omega⟩
  refine ⟨⟨?_, fun h => ⟨_, hfatal h⟩⟩, hfatal, hok⟩
  rintro ⟨e, he⟩ h
  obtain ⟨w, hw, _⟩ := hok h
  rw [hw] at he
  cases he

/-- Witness for C2: series of lengths 64 and 65 with initial time `"2022111812"`: no
forecast is returned, the run ends in `log.Fatal`. -/
theorem combine_weather_data_fails_iff_witness :
    (∀ w, combine_weather_data
        ⟨str "civil", str "2022111812", List.replicate 64 (civil_record 3)⟩
        ⟨str "meteo", str "2022111812", List.replicate 65 (meteo_record 3)⟩ ≠ .ok w) ∧
    combine_weather_data
        ⟨str "civil", str "2022111812", List.replicate 64 (civil_record 3)⟩
        ⟨str "meteo", str "2022111812", List.replicate 65 (meteo_record 3)⟩ =
      .error (.fatal
        (str "The METEO and CIVIL APIs returned different numbers of data points")) :=
  ⟨(combine_weather_data_fails_iff
      ⟨str "civil", str "2022111812", List.replicate 64 (civil_record 3)⟩
      ⟨str "meteo", str "2022111812", List.replicate 65 (meteo_record 3)⟩).1 (by simp),
   ((combine_weather_data_fails_iff
      ⟨str "civil", str "2022111812", List.replicate 64 (civil_record 3)⟩
      ⟨str "meteo", str "2022111812", List.replicate 65 (meteo_record 3)⟩).2
        (by decide)).2.1 (by simp)⟩

/-- C3, counterexample. `civil_sample` (initial time `"2022111812"`) and
`meteo_later_init` (initial time `"2022111900"`) have equal lengths and 10-digit initial
times, yet the merged initial time and date-times are those of the CIVIL initial time,
not of the METEO one. -/
theorem combine_weather_data_init_counterexample :
    civil_sample.DataSeries.length = meteo_later_init.DataSeries.length ∧
    (civil_sample.Init.length = 10 ∧ ∀ c ∈ civil_sample.Init, is_digit c) ∧
    (meteo_later_init.Init.length = 10 ∧ ∀ c ∈ meteo_later_init.Init, is_digit c) ∧
    (string_to_time meteo_later_init.Init).map time_to_string =
      .ok (str "11/19/2022 00:00:00") ∧
    (combine_weather_data civil_sample meteo_later_init).map (fun w => w.Init) =
      .ok (str "11/18/2022 12:00:00") ∧
    (combine_weather_data civil_sample meteo_later_init).map (fun w => w.Init) ≠
      (string_to_time meteo_later_init.Init).map time_to_string ∧
    (combine_weather_data civil_sample meteo_later_init).map
        (fun w => w.DataSeries.map (fun r => r.Datetime)) =
      .ok [str "11/18/2022 15:00:00", str "11/18/2022 18:00:00"] ∧
    (string_to_time meteo_later_init.Init).map
        (fun t => meteo_later_init.DataSeries.map
          (fun m => time_to_string (add_hours t m.Timepoint))) =
      .ok [str "11/19/2022 03:00:00", str "11/19/2022 06:00:00"] := by
  decide

/-- C3, amended. The initial time of the merged forecast is taken from the CIVIL
forecast: on equal lengths and a 10-digit `civil.Init`, whatever `meteo.Init` is, the
output `Init` is `time_to_string` of the parsed `civil.Init`, and the date-time at
every index is that initial time plus the METEO offset at that index. -/
theorem combine_weather_data_init_from_civil (civil : CivilForecast) (meteo : MeteoForecast)
    (hlen : civil.DataSeries.length = meteo.DataSeries.length)
    (hinit : civil.Init.length = 10 ∧ ∀ c ∈ civil.Init, is_digit c) :
    ∃ t0 w, string_to_time civil.Init = .ok t0 ∧
      combine_weather_data civil meteo = .ok w ∧
      w.Init = time_to_string t0 ∧
      w.DataSeries.length = meteo.DataSeries.length ∧
      ∀ i, i < meteo.DataSeries.length →
        ∃ m r, meteo.DataSeries[i]? = some m ∧ w.DataSeries[i]? = some r ∧
          r.Datetime = time_to_string (add_hours t0 m.Timepoint) := by
  obtain ⟨t0, ht⟩ := string_to_time_ok civil.Init (by omega)
  obtain ⟨w, hw, _, hi, hl, hrec⟩ := combine_weather_data_ok civil meteo t0 ht hlen.symm
  refine ⟨t0, w, ht, hw, hi, hl, ?_⟩
  intro i hiN
  obtain ⟨c, m, _, h2, h3⟩ := hrec i hiN
  exact ⟨m, _, h2, h3, rfl⟩

/-- Witness for C3, amended: `civil_sample` with `meteo_later_init`; the merged initial
time is the CIVIL one, 12:00 on 18 November 2022. -/
theorem combine_weather_data_init_from_civil_witness :
    ∃ t0 w, string_to_time civil_sample.Init = .ok t0 ∧
      combine_weather_data civil_sample meteo_later_init = .ok w ∧
      w.Init = time_to_string t0 ∧ w.Init = str "11/18/2022 12:00:00" := by
  obtain ⟨t0, w, h1, h2, h3, _⟩ :=
    combine_weather_data_init_from_civil civil_sample meteo_later_init (by decide) (by decide)
  refine ⟨t0, w, h1, h2, h3, ?_⟩
  have h0 : string_to_time civil_sample.Init = .ok ⟨2022, 11, 18, 12, 0, 0⟩ := by decide
  rw [h0] at h1
  cases h1
  rw [h3]
  decide

/-- C4, counterexample. `civil_sample` and `meteo_other_offsets` have equal lengths and
different offsets at index 1 (6 and 14), and `combine_weather_data` returns a merged
series of two records. -/
theorem combine_weather_data_offsets_counterexample :
    civil_sample.DataSeries.length = meteo_other_offsets.DataSeries.length ∧
    civil_sample.DataSeries.map (fun c => c.Timepoint) = [3, 6] ∧
    meteo_other_offsets.DataSeries.map (fun m => m.Timepoint) = [3, 14] ∧
    (combine_weather_data civil_sample meteo_other_offsets).map
        (fun w => w.DataSeries.map (fun r => r.Datetime)) =
      .ok [str "11/18/2022 15:00:00", str "11/19/2022 02:00:00"] := by
  decide

/-- C4, amended. `combine_weather_data` does not read the CIVIL offsets: replacing
every `civil.DataSeries[i].Timepoint` by any other value leaves the result unchanged,
and on equal lengths with a `civil.Init` of at least 10 bytes, whether or not
the offsets agree, it returns the merged series of that length with every date-time
computed from the METEO offset. -/
theorem combine_weather_data_ignores_civil_offsets (civil : CivilForecast)
    (meteo : MeteoForecast) :
    (∀ f : DataSeriesCivil → Int,
      combine_weather_data
        { civil with DataSeries := civil.DataSeries.map (fun c => { c with Timepoint := f c }) }
        meteo = combine_weather_data civil meteo) ∧
    (civil.DataSeries.length = meteo.DataSeries.length → 10 ≤ civil.Init.length →
      ∃ t0 w, string_to_time civil.Init = .ok t0 ∧
        combine_weather_data civil meteo = .ok w ∧
        w.DataSeries.length = meteo.DataSeries.length ∧
        ∀ i, i < meteo.DataSeries.length →
          ∃ m r, meteo.DataSeries[i]? = some m ∧ w.DataSeries[i]? = some r ∧
            r.Datetime = time_to_string (add_hours t0 m.Timepoint)) := by
  constructor
  · intro f
    cases ht : string_to_time civil.Init with
    | error e => simp only [combine_weather_data, ht, bind, Except.bind]
    | ok t0 =>
      by_cases h : meteo.DataSeries.length = civil.DataSeries.length
      · obtain ⟨w, hw, hp, hi, hl, hrec⟩ := combine_weather_data_ok civil meteo t0 ht h
        obtain ⟨v, hv, hp', hi', hl', hrec'⟩ :=
          combine_weather_data_ok
            { civil with
              DataSeries := civil.DataSeries.map (fun c => { c with Timepoint := f c }) }
            meteo t0 ht (by rw [h]; exact (List.length_map _ _).symm)
        have hds : v.DataSeries = w.DataSeries := by
          apply List.ext_getElem?
          intro j
          by_cases hj : j < meteo.DataSeries.length
          · obtain ⟨c, m, h1, h2, h3⟩ := hrec j hj
            obtain ⟨c', m', h1', h2', h3'⟩ := hrec' j hj
            rw [h2] at h2'
            cases h2'
            simp only [List.getElem?_map, h1, Option.map_some', Option.some.injEq] at h1'
            rw [h3, h3', ← h1']
            rfl
          · rw [List.getElem?_eq_none (by omega), List.getElem?_eq_none (by omega)]
        rw [hw, hv]
        obtain ⟨wp, wi, wd⟩ := w
        obtain ⟨vp, vi, vd⟩ := v
        simp only at hp hi hp' hi' hds
        rw [hp, hi, hp', hi', hds]
      · have e1 := (combine_weather_data_mismatch civil meteo h).2 t0 ht
        have e2 := (combine_weather_data_mismatch
          { civil with
            DataSeries := civil.DataSeries.map (fun c => { c with Timepoint := f c }) }
          meteo (by simp only [List.length_map]; exact h)).2 t0 ht
        rw [e1, e2]
  · intro hlen hinit
    obtain ⟨t0, ht⟩ := string_to_time_ok civil.Init hinit
    obtain ⟨w, hw, _, _, hl, hrec⟩ := combine_weather_data_ok civil meteo t0 ht hlen.symm
    refine ⟨t0, w, ht, hw, hl, ?_⟩
    intro i hiN
    obtain ⟨c, m, _, h2, h3⟩ := hrec i hiN
    exact ⟨m, _, h2, h3, rfl⟩

/-- Witness for C4, amended: `civil_sample` (offsets 3, 6) with `meteo_other_offsets`
(offsets 3, 14): a merged series of length 2 is returned, and it is the one obtained
when the CIVIL offsets are all replaced by 0. -/
theorem combine_weather_data_ignores_civil_offsets_witness :
    (∃ t0 w, string_to_time civil_sample.Init = .ok t0 ∧
      combine_weather_data civil_sample meteo_other_offsets = .ok w ∧
      w.DataSeries.length = 2) ∧
    combine_weather_data
      { civil_sample with
        DataSeries := civil_sample.DataSeries.map (fun c => { c with Timepoint := 0 }) }
      meteo_other_offsets = combine_weather_data civil_sample meteo_other_offsets := by
  obtain ⟨t0, w, h1, h2, h3, _⟩ :=
    (combine_weather_data_ignores_civil_offsets civil_sample meteo_other_offsets).2
      (by decide) (by decide)
  exact ⟨⟨t0, w, h1, h2, h3⟩,
    (combine_weather_data_ignores_civil_offsets civil_sample meteo_other_offsets).1
      (fun _ => 0)⟩

/-! ## Malformed initial times -/

theorem string_to_time_short (x : GoString) (h : x.length < 10) :
    string_to_time x = .error .slice_bounds_out_of_range := by
  have h10 : ¬ (8 ≤ 10 ∧ 10 ≤ x.length) := by omega
  simp only [string_to_time, slice, bind, Except.bind, if_neg h10]
  split_ifs <;> rfl

theorem string_to_time_minute_second (x : GoString) (t : MyTime)
    (h : string_to_time x = .ok t) : t.Minute = 0 ∧ t.Second = 0 := by
  by_cases hl : 10 ≤ x.length
  · match x, hl with
    | c0 :: c1 :: c2 :: c3 :: c4 :: c5 :: c6 :: c7 :: c8 :: c9 :: rest, _ =>
      rw [string_to_time_slices] at h
      cases h
      exact ⟨rfl, rfl⟩
  · rw [string_to_time_short x (by omega)] at h
    cases h

/-- C11, counterexample. On the 4-byte string `"2022"`, and on the empty string,
`string_to_time` returns no timestamp: the slice expressions are out of bounds and the
run aborts. -/
theorem string_to_time_short_counterexample :
    string_to_time (str "2022") = .error .slice_bounds_out_of_range ∧
    string_to_time (str "") = .error .slice_bounds_out_of_range ∧
    string_to_time (str "202211181") = .error .slice_bounds_out_of_range ∧
    ¬ ∃ t, string_to_time (str "2022") = .ok t := by
  refine ⟨by decide, by decide, by decide, ?_⟩
  rintro ⟨t, ht⟩
  have h : string_to_time (str "2022") = .error .slice_bounds_out_of_range := by decide
  rw [h] at ht
  cases ht

/-- C11, amended. `string_to_time` validates nothing itself and discards every parse
error: on every string of at least 10 bytes, digits or not, it returns a timestamp,
with minute and second zero; it returns a timestamp only then, and on a string
shorter than 10 bytes the run aborts on a slice out of bounds. -/
theorem string_to_time_total_from_ten_bytes (x : GoString) :
    (10 ≤ x.length → ∃ t, string_to_time x = .ok t ∧ t.Minute = 0 ∧ t.Second = 0) ∧
    (x.length < 10 → string_to_time x = .error .slice_bounds_out_of_range) ∧
    ((∃ t, string_to_time x = .ok t) ↔ 10 ≤ x.length) := by
  have h1 : 10 ≤ x.length → ∃ t, string_to_time x = .ok t ∧ t.Minute = 0 ∧ t.Second = 0 := by
    intro h
    obtain ⟨t, ht⟩ := string_to_time_ok x h
    exact ⟨t, ht, string_to_time_minute_second x t ht⟩
  refine ⟨h1, string_to_time_short x, ?_, fun h => ?_⟩
  · rintro ⟨t, ht⟩
    by_contra hlt
    rw [string_to_time_short x (by omega)] at ht
    cases ht
  · obtain ⟨t, ht, _⟩ := h1 h
    exact ⟨t, ht⟩

/-- Witness for C11, amended: the 10 bytes `"2022-11-18"` and the 13 bytes
`"not a number!"` give timestamps with minute and second zero. -/
theorem string_to_time_total_from_ten_bytes_witness :
    (∃ t, string_to_time (str "2022-11-18") = .ok t ∧ t.Minute = 0 ∧ t.Second = 0) ∧
    string_to_time (str "2022-11-18") = .ok ⟨2022, -1, 0, 18, 0, 0⟩ ∧
    string_to_time (str "not a number!") = .ok ⟨0, 0, 0, 0, 0, 0⟩ :=
  ⟨(string_to_time_total_from_ten_bytes (str "2022-11-18")).1 (by decide), by decide,
   by decide⟩

theorem atoi_digits_none (l : GoString) (n : Nat) (h : ∃ d ∈ l, ¬ is_digit d) :
    atoi_digits l n = none := by
  induction l generalizing n with
  | nil =>
    obtain ⟨d, hd, _⟩ := h
    cases hd
  | cons c rest ih =>
    by_cases hc : is_digit c
    · rw [atoi_digits_cons c rest n hc]
      apply ih
      obtain ⟨d, hd, hnd⟩ := h
      rcases List.mem_cons.1 hd with rfl | hr
      · exact absurd hc hnd
      · exact ⟨d, hr, hnd⟩
    · have hlt : c.toNat < 2 ^ 8 := UInt8.toNat_lt c
      have h9 : (c.toNat + 256 - 48) % 256 > 9 := by
        unfold is_digit at hc
        omega
      simp only [atoi_digits]
      rw [if_pos h9]

theorem Atoi_not_a_number (s : GoString) (h : not_a_number s) : Atoi s = (0, true) := by
  match s, h with
  | [], _ => rfl
  | c :: rest, h =>
    simp only [not_a_number] at h
    by_cases hs : c = 45 ∨ c = 43
    · rw [if_pos hs] at h
      simp only [Atoi, if_pos hs]
      by_cases hlen : rest.length < 1
      · rw [if_pos hlen]
      · rw [if_neg hlen]
        have hne : rest ≠ [] := by
          intro he
          rw [he] at hlen
          exact hlen (by decide)
        rcases h with h | h
        · exact absurd h hne
        · rw [atoi_digits_none rest 0 h]
    · rw [if_neg hs] at h
      simp only [Atoi, if_neg hs]
      rw [if_neg (by simp), atoi_digits_none (c :: rest) 0 h]

theorem all_digits_cons (c : UInt8) (rest : GoString) :
    all_digits (c :: rest) ↔ is_digit c ∧ all_digits rest := by
  simp [all_digits]

theorem all_digits_nil : all_digits [] := by
  simp [all_digits]

theorem not_a_number_of_rest (c : UInt8) (rest : GoString) (h : ¬ all_digits rest) :
    not_a_number (c :: rest) := by
  have hex : ∃ d ∈ rest, ¬ is_digit d := by
    unfold all_digits at h
    push_neg at h
    exact h
  simp only [not_a_number]
  split_ifs
  · exact Or.inr hex
  · obtain ⟨d, hd, hnd⟩ := hex
    exact ⟨d, List.mem_cons_of_mem _ hd, hnd⟩

theorem not_a_number_of_head (c : UInt8) (rest : GoString) (hc : ¬ is_digit c)
    (h45 : c ≠ 45) (h43 : c ≠ 43) : not_a_number (c :: rest) := by
  simp only [not_a_number]
  rw [if_neg (by rintro (h | h); exact h45 h; exact h43 h)]
  exact ⟨c, List.mem_cons_self _ _, hc⟩

theorem render_field_zero (c : UInt8) (rest : GoString) (h1 : ¬ all_digits (c :: rest))
    (h2 : ¬ (c = 43 ∧ rest ≠ [] ∧ all_digits rest))
    (h3 : ¬ (c = 45 ∧ rest ≠ [] ∧ all_digits rest ∧ (∃ d ∈ rest, d ≠ 48))) :
    render_field (c :: rest) = List.replicate (rest.length + 1) 48 := by
  simp only [render_field]
  rw [if_neg h1, if_neg h2, if_neg h3]

theorem sign_not_all_digits (c : UInt8) (rest : GoString) (hs : c = 45 ∨ c = 43) :
    ¬ all_digits (c :: rest) :=
  fun h => digit_not_sign c ((all_digits_cons c rest).1 h).1 hs

theorem render_field_digits (c : UInt8) (rest : GoString) (h : all_digits (c :: rest)) :
    render_field (c :: rest) = c :: rest := by
  simp only [render_field]
  rw [if_pos h]

theorem render_field_plus (rest : GoString) (hne : rest ≠ []) (hd : all_digits rest) :
    render_field (43 :: rest) = 48 :: rest := by
  have hall := sign_not_all_digits 43 rest (Or.inr rfl)
  simp only [render_field]
  rw [if_neg hall, if_pos ⟨trivial, hne, hd⟩]

theorem render_field_minus (rest : GoString) (hne : rest ≠ []) (hd : all_digits rest)
    (hnz : ∃ d ∈ rest, d ≠ 48) : render_field (45 :: rest) = 45 :: rest := by
  have hall := sign_not_all_digits 45 rest (Or.inl rfl)
  have h43 : ¬ ((45 : UInt8) = 43 ∧ rest ≠ [] ∧ all_digits rest) := fun h => absurd h.1 (by decide)
  simp only [render_field]
  rw [if_neg hall, if_neg h43, if_pos ⟨trivial, hne, hd, hnz⟩]

theorem digit_value_eq_zero (c : UInt8) (h : is_digit c) : digit_value c = 0 ↔ c = 48 := by
  constructor
  · intro h0
    have e := digit_byte_digit_value c h
    rw [h0] at e
    exact e.symm
  · intro h0
    rw [h0]
    rfl

theorem fmt_zero_pad_neg (wid n : Nat) (hn : 0 < n) :
    fmt_zero_pad wid (-(n : Int)) =
      45 :: (List.replicate (wid - 1 - (fmt_digits n n []).length) 48 ++ fmt_digits n n []) := by
  have hneg : (-(n : Int)) < 0 := by omega
  simp only [fmt_zero_pad, if_pos hneg, Int.natAbs_neg, Int.natAbs_ofNat]

theorem fmt_digits_three (n : Nat) (h : n < 1000) :
    List.replicate (4 - 1 - (fmt_digits n n []).length) 48 ++ fmt_digits n n [] =
      [digit_byte (n / 100), digit_byte (n / 10 % 10), digit_byte (n % 10)] := by
  by_cases h10 : n < 10
  · rw [fmt_digits_small _ _ _ h10]
    have h0 : n / 100 = 0 := by omega
    have h1 : n / 10 % 10 = 0 := by omega
    have h2 : n % 10 = n := by omega
    rw [h0, h1, h2]
    rfl
  · by_cases h100 : n < 100
    · rw [fmt_digits_two n h100 (by omega)]
      have h0 : n / 100 = 0 := by omega
      have h1 : n / 10 % 10 = n / 10 := by omega
      rw [h0, h1]
      rfl
    · obtain ⟨k, rfl⟩ : ∃ k, n = k + 2 := ⟨n - 2, by omega⟩
      rw [fmt_digits_step _ _ _ (by omega), fmt_digits_step _ _ _ (by omega),
        fmt_digits_small _ _ _ (by omega)]
      have h0 : (k + 2) / 10 / 10 = (k + 2) / 100 := by omega
      rw [h0]
      rfl

theorem Atoi_sign_one (s b : UInt8) (hs : s = 45 ∨ s = 43) (hb : is_digit b) :
    Atoi [s, b] =
      (if s = 45 then -((digit_value b : Nat) : Int) else ((digit_value b : Nat) : Int),
        false) := by
  simp only [Atoi, if_pos hs, List.length_cons, List.length_nil]
  rw [if_neg (by omega), atoi_digits_cons _ _ _ hb, atoi_digits]
  simp

theorem Atoi_sign_three (s b c d : UInt8) (hs : s = 45 ∨ s = 43) (hb : is_digit b)
    (hc : is_digit c) (hd : is_digit d) :
    Atoi [s, b, c, d] =
      (if s = 45 then
          -((100 * digit_value b + 10 * digit_value c + digit_value d : Nat) : Int)
        else ((100 * digit_value b + 10 * digit_value c + digit_value d : Nat) : Int),
        false) := by
  have e : ((0 * 10 + digit_value b) * 10 + digit_value c) * 10 + digit_value d =
      100 * digit_value b + 10 * digit_value c + digit_value d := by omega
  simp only [Atoi, if_pos hs, List.length_cons, List.length_nil]
  rw [if_neg (by omega), atoi_digits_cons _ _ _ hb, atoi_digits_cons _ _ _ hc,
    atoi_digits_cons _ _ _ hd, atoi_digits]
  simp only [e]

/-- A two-byte field: `%02d` of what `strconv.Atoi` returns for the slice is
`render_field` of the slice. -/
theorem render_field_two (a b : UInt8) :
    fmt_zero_pad 2 (Atoi [a, b]).1 = render_field [a, b] := by
  have hzero : fmt_zero_pad 2 0 = List.replicate 2 48 := by decide
  by_cases hb : is_digit b
  · have hrest : all_digits [b] := (all_digits_cons b []).2 ⟨hb, all_digits_nil⟩
    by_cases ha : is_digit a
    · have hall : all_digits [a, b] := (all_digits_cons a [b]).2 ⟨ha, hrest⟩
      rw [Atoi_two_digits a b ha hb, fmt_zero_pad_two_digits a b ha hb,
        render_field_digits a [b] hall]
    · have hall : ¬ all_digits [a, b] := fun h => ha ((all_digits_cons a [b]).1 h).1
      have hv := digit_value_lt b hb
      by_cases h43 : a = 43
      · subst h43
        rw [Atoi_sign_one 43 b (Or.inr rfl) hb, if_neg (by decide),
          fmt_zero_pad_two _ (by omega), render_field_plus [b] (by simp) hrest]
        have e0 : digit_value b / 10 = 0 := by omega
        have e1 : digit_value b % 10 = digit_value b := by omega
        rw [e0, e1, digit_byte_digit_value b hb]
        rfl
      · by_cases h45 : a = 45
        · subst h45
          rw [Atoi_sign_one 45 b (Or.inl rfl) hb, if_pos rfl]
          by_cases hb0 : b = 48
          · subst hb0
            decide
          · have hne : digit_value b ≠ 0 := fun h => hb0 ((digit_value_eq_zero b hb).1 h)
            rw [fmt_zero_pad_neg 2 _ (by omega), fmt_digits_small _ _ _ hv,
              digit_byte_digit_value b hb,
              render_field_minus [b] (by simp) hrest ⟨b, by simp, hb0⟩]
            rfl
        · rw [Atoi_not_a_number _ (not_a_number_of_head a [b] ha h45 h43), hzero,
            render_field_zero a [b] hall (fun h => h43 h.1) (fun h => h45 h.1)]
          rfl
  · have hrest : ¬ all_digits [b] := fun h => hb ((all_digits_cons b []).1 h).1
    have hall : ¬ all_digits [a, b] := fun h => hrest ((all_digits_cons a [b]).1 h).2
    rw [Atoi_not_a_number _ (not_a_number_of_rest a [b] hrest), hzero,
      render_field_zero a [b] hall (fun h => hrest h.2.2) (fun h => hrest h.2.2.1)]
    rfl

/-- A four-byte field: `%04d` of what `strconv.Atoi` returns for the slice is
`render_field` of the slice. -/
theorem render_field_four (a b c d : UInt8) :
    fmt_zero_pad 4 (Atoi [a, b, c, d]).1 = render_field [a, b, c, d] := by
  have hzero : fmt_zero_pad 4 0 = List.replicate 4 48 := by decide
  by_cases hrest : all_digits [b, c, d]
  · have hb : is_digit b := ((all_digits_cons b [c, d]).1 hrest).1
    have hcd : all_digits [c, d] := ((all_digits_cons b [c, d]).1 hrest).2
    have hc : is_digit c := ((all_digits_cons c [d]).1 hcd).1
    have hd : is_digit d := ((all_digits_cons d []).1 ((all_digits_cons c [d]).1 hcd).2).1
    have vb := digit_value_lt b hb
    have vc := digit_value_lt c hc
    have vd := digit_value_lt d hd
    have e1 : (100 * digit_value b + 10 * digit_value c + digit_value d) / 100 =
        digit_value b := by omega
    have e2 : (100 * digit_value b + 10 * digit_value c + digit_value d) / 10 % 10 =
        digit_value c := by omega
    have e3 : (100 * digit_value b + 10 * digit_value c + digit_value d) % 10 =
        digit_value d := by omega
    by_cases ha : is_digit a
    · have hall : all_digits [a, b, c, d] := (all_digits_cons a [b, c, d]).2 ⟨ha, hrest⟩
      rw [Atoi_four_digits a b c d ha hb hc hd, fmt_zero_pad_four_digits a b c d ha hb hc hd,
        render_field_digits a [b, c, d] hall]
    · have hall : ¬ all_digits [a, b, c, d] :=
        fun h => ha ((all_digits_cons a [b, c, d]).1 h).1
      by_cases h43 : a = 43
      · subst h43
        rw [Atoi_sign_three 43 b c d (Or.inr rfl) hb hc hd, if_neg (by decide),
          fmt_zero_pad_four _ (by omega), render_field_plus [b, c, d] (by simp) hrest]
        have e0 : (100 * digit_value b + 10 * digit_value c + digit_value d) / 1000 = 0 := by
          omega
        have e1' : (100 * digit_value b + 10 * digit_value c + digit_value d) / 100 % 10 =
            digit_value b := by omega
        rw [e0, e1', e2, e3, digit_byte_digit_value b hb, digit_byte_digit_value c hc,
          digit_byte_digit_value d hd]
        rfl
      · by_cases h45 : a = 45
        · subst h45
          rw [Atoi_sign_three 45 b c d (Or.inl rfl) hb hc hd, if_pos rfl]
          by_cases hz : b = 48 ∧ c = 48 ∧ d = 48
          · obtain ⟨rfl, rfl, rfl⟩ := hz
            decide
          · have hex : ∃ x ∈ [b, c, d], x ≠ 48 := by
              by_contra hne
              push_neg at hne
              exact hz ⟨hne b (by simp), hne c (by simp), hne d (by simp)⟩
            have hpos : 0 < 100 * digit_value b + 10 * digit_value c + digit_value d := by
              by_contra h0
              have zb : digit_value b = 0 := by omega
              have zc : digit_value c = 0 := by omega
              have zd : digit_value d = 0 := by omega
              exact hz ⟨(digit_value_eq_zero b hb).1 zb, (digit_value_eq_zero c hc).1 zc,
                (digit_value_eq_zero d hd).1 zd⟩
            rw [fmt_zero_pad_neg 4 _ hpos, fmt_digits_three _ (by omega), e1, e2, e3,
              digit_byte_digit_value b hb, digit_byte_digit_value c hc,
              digit_byte_digit_value d hd, render_field_minus [b, c, d] (by simp) hrest hex]
        · rw [Atoi_not_a_number _ (not_a_number_of_head a [b, c, d] ha h45 h43), hzero,
            render_field_zero a [b, c, d] hall (fun h => h43 h.1) (fun h => h45 h.1)]
          rfl
  · have hall : ¬ all_digits [a, b, c, d] :=
      fun h => hrest ((all_digits_cons a [b, c, d]).1 h).2
    rw [Atoi_not_a_number _ (not_a_number_of_rest a [b, c, d] hrest), hzero,
      render_field_zero a [b, c, d] hall (fun h => hrest h.2.2) (fun h => hrest h.2.2.1)]
    rfl

/-- C12, counterexample. The space-padded `"2022 1 1 0"` is rendered
`"00/00/2022 00:00:00"`, not `"01/01/2022 00:00:00"`: the fields `" 1"` and `" 0"` are
not numbers for `strconv.Atoi`, which returns 0 for them. Likewise `"2022-11-18"` is
rendered `"-1/00/2022 18:00:00"`. -/
theorem round_trip_malformed_counterexample :
    (string_to_time (str "2022 1 1 0")).map time_to_string =
      .ok (str "00/00/2022 00:00:00") ∧
    (string_to_time (str "2022 1 1 0")).map time_to_string ≠
      .ok (str "01/01/2022 00:00:00") ∧
    Atoi (str " 1") = (0, true) ∧
    (string_to_time (str "2022-11-18")).map time_to_string =
      .ok (str "-1/00/2022 18:00:00") := by
  decide

/-- C12, amended. On every string `s` of 10 bytes `time_to_string (string_to_time s)` is
`MM/DD/YYYY HH:00:00` where each field is `render_field` of its slice (`s[4:6]`,
`s[6:8]`, `s[0:4]`, `s[8:10]`), which is what `strconv.Atoi` and `%02d`, `%04d` make
of it: a slice of ASCII digits is rendered as itself, `'+'` and digits as `'0'` and
the digits, `'-'` and digits not all `'0'` as itself, and every other slice (a
space-padded one, for instance) has value 0 and is rendered as zeros. -/
theorem round_trip_ten_bytes (x : GoString) (hlen : x.length = 10) :
    ∃ t, string_to_time x = .ok t ∧
      time_to_string t =
        render_field ((x.drop 4).take 2) ++ str "/" ++ render_field ((x.drop 6).take 2) ++
          str "/" ++ render_field (x.take 4) ++ str " " ++
          render_field ((x.drop 8).take 2) ++ str ":00:00" ∧
      (not_a_number ((x.drop 4).take 2) → t.Month = 0) ∧
      (not_a_number ((x.drop 6).take 2) → t.Day = 0) ∧
      (not_a_number (x.take 4) → t.Year = 0) ∧
      (not_a_number ((x.drop 8).take 2) → t.Hour = 0) := by
  obtain ⟨c0, c1, c2, c3, c4, c5, c6, c7, c8, c9, rfl⟩ := length_ten x hlen
  refine ⟨_, string_to_time_slices c0 c1 c2 c3 c4 c5 c6 c7 c8 c9 [], ?_,
    fun h => congrArg Prod.fst (Atoi_not_a_number _ h),
    fun h => congrArg Prod.fst (Atoi_not_a_number _ h),
    fun h => congrArg Prod.fst (Atoi_not_a_number _ h),
    fun h => congrArg Prod.fst (Atoi_not_a_number _ h)⟩
  have e0 : fmt_zero_pad 2 0 = [48, 48] := by decide
  have e1 : str "/" = [47] := by decide
  have e2 : str " " = [32] := by decide
  have e3 : str ":00:00" = [58, 48, 48, 58, 48, 48] := by decide
  have s1 : List.take 2 (List.drop 4 [c0, c1, c2, c3, c4, c5, c6, c7, c8, c9]) = [c4, c5] := rfl
  have s2 : List.take 2 (List.drop 6 [c0, c1, c2, c3, c4, c5, c6, c7, c8, c9]) = [c6, c7] := rfl
  have s3 : List.take 4 [c0, c1, c2, c3, c4, c5, c6, c7, c8, c9] = [c0, c1, c2, c3] := rfl
  have s4 : List.take 2 (List.drop 8 [c0, c1, c2, c3, c4, c5, c6, c7, c8, c9]) = [c8, c9] := rfl
  rw [s1, s2, s3, s4, ← render_field_two c4 c5, ← render_field_two c6 c7,
    ← render_field_four c0 c1 c2 c3, ← render_field_two c8 c9]
  simp only [time_to_string, e0, e1, e2, e3, List.append_assoc, List.cons_append,
    List.nil_append]

/-- Witness for C12, amended: `"2022 1 1 0"`, whose year slice is digits and whose
other slices are space-padded, is rendered `"00/00/2022 00:00:00"`, and `"2022-11-18"`
is rendered `"-1/00/2022 18:00:00"`. -/
theorem round_trip_ten_bytes_witness :
    (∃ t, string_to_time (str "2022 1 1 0") = .ok t ∧
      t.Month = 0 ∧ t.Day = 0 ∧ t.Hour = 0 ∧
      time_to_string t = str "00/00/2022 00:00:00") ∧
    (∃ t, string_to_time (str "2022-11-18") = .ok t ∧
      time_to_string t = str "-1/00/2022 18:00:00") := by
  obtain ⟨t, h1, h2, hmo, hda, _, hhr⟩ := round_trip_ten_bytes (str "2022 1 1 0") (by decide)
  obtain ⟨u, k1, k2, _⟩ := round_trip_ten_bytes (str "2022-11-18") (by decide)
  refine ⟨⟨t, h1, hmo (by decide), hda (by decide), hhr (by decide), ?_⟩, ⟨u, k1, ?_⟩⟩
  · rw [h2]
    decide
  · rw [k2]
    decide

/-! ## One pass of the carry rules -/

/-- The three month-length statements after the 31-day one: at most one of them fires,
taking 30 days off a 30-day month, or 29 or 28 off February. -/
theorem carry_month_length_once (y m d hr mi se : Int) (hm : 0 ≤ m ∧ m ≤ 13)
    (hd : d ≤ 9223372036854775807) :
    ∃ b r : Int,
      ((b = 0 ∧ r = 0) ∨
       (b = 1 ∧ r = 30 ∧ (m = 4 ∨ m = 6 ∨ m = 9 ∨ m = 11) ∧ 30 < d) ∨
       (b = 1 ∧ r = 29 ∧ m = 2 ∧ 29 < d) ∨
       (b = 1 ∧ r = 28 ∧ m = 2 ∧ 28 < d)) ∧
      carry_feb_common (carry_feb_leap (carry_30 ⟨y, m, d, hr, mi, se⟩)) =
        ⟨y, m + b, d - r, hr, mi, se⟩ := by
  rw [carry_30_mk]
  by_cases h30 : (m = 4 ∨ m = 6 ∨ m = 9 ∨ m = 11) ∧ 30 < d
  · rw [if_pos h30, wrap64_eq (m + 1) (by omega), wrap64_eq (d - 30) (by omega),
      carry_feb_leap_mk, if_neg (by omega), carry_feb_common_mk, if_neg (by omega)]
    exact ⟨1, 30, by omega, rfl⟩
  · rw [if_neg h30, carry_feb_leap_mk]
    by_cases hfl : m = 2 ∧ 29 < d ∧ is_leap_year y
    · rw [if_pos hfl, wrap64_eq (m + 1) (by omega), wrap64_eq (d - 29) (by omega),
        carry_feb_common_mk, if_neg (by omega)]
      exact ⟨1, 29, by omega, rfl⟩
    · rw [if_neg hfl, carry_feb_common_mk]
      by_cases hfc : m = 2 ∧ 28 < d ∧ ¬ is_leap_year y
      · rw [if_pos hfc, wrap64_eq (m + 1) (by omega), wrap64_eq (d - 28) (by omega)]
        exact ⟨1, 28, by omega, rfl⟩
      · rw [if_neg hfc]
        refine ⟨0, 0, by omega, ?_⟩
        simp only [MyTime.mk.injEq, and_true, true_and]
        omega

/-- The five conditional statements in one pass, on a month in 1..12 and a day that is
a Go value: the 31-day statement fires or not (`a`), then at most one month-length
statement (`b`, taking `r` days), then the year statement (`c`), whose increment of
the year is a 64-bit addition. -/
theorem carry_chain_shape (y m d hr mi se : Int) (hm : 1 ≤ m ∧ m ≤ 12)
    (hd : -9223372036854775808 ≤ d ∧ d ≤ 9223372036854775807) :
    ∃ a b c r yr : Int,
      ((a = 0 ∧ d ≤ 31) ∨ (a = 1 ∧ 31 < d)) ∧
      ((b = 0 ∧ r = 0) ∨
       (b = 1 ∧ r = 30 ∧ (m + a = 4 ∨ m + a = 6 ∨ m + a = 9 ∨ m + a = 11)) ∨
       (b = 1 ∧ (r = 29 ∨ r = 28) ∧ m + a = 2)) ∧
      ((c = 0 ∧ m + a + b ≤ 12 ∧ yr = y) ∨ (c = 1 ∧ 12 < m + a + b ∧ yr = wrap64 (y + 1))) ∧
      carry_year (carry_feb_common (carry_feb_leap (carry_30 (carry_31
          ⟨y, m, d, hr, mi, se⟩)))) =
        ⟨yr, m + a + b - 12 * c, d - 31 * a - r, hr, mi, se⟩ := by
  have key : ∀ a : Int, ((a = 0 ∧ d ≤ 31) ∨ (a = 1 ∧ 31 < d)) →
      carry_31 ⟨y, m, d, hr, mi, se⟩ = ⟨y, m + a, d - 31 * a, hr, mi, se⟩ →
      ∃ a b c r yr : Int,
        ((a = 0 ∧ d ≤ 31) ∨ (a = 1 ∧ 31 < d)) ∧
        ((b = 0 ∧ r = 0) ∨
         (b = 1 ∧ r = 30 ∧ (m + a = 4 ∨ m + a = 6 ∨ m + a = 9 ∨ m + a = 11)) ∨
         (b = 1 ∧ (r = 29 ∨ r = 28) ∧ m + a = 2)) ∧
        ((c = 0 ∧ m + a + b ≤ 12 ∧ yr = y) ∨
          (c = 1 ∧ 12 < m + a + b ∧ yr = wrap64 (y + 1))) ∧
        carry_year (carry_feb_common (carry_feb_leap (carry_30 (carry_31
            ⟨y, m, d, hr, mi, se⟩)))) =
          ⟨yr, m + a + b - 12 * c, d - 31 * a - r, hr, mi, se⟩ := by
    intro a ha h31
    obtain ⟨b, r, hbr, hmid⟩ :=
      carry_month_length_once y (m + a) (d - 31 * a) hr mi se (by omega) (by omega)
    rw [h31, hmid, carry_year_mk]
    by_cases hy : 12 < m + a + b
    · rw [if_pos hy, wrap64_eq (m + a + b - 12) (by omega)]
      refine ⟨a, b, 1, r, wrap64 (y + 1), ha, by omega, Or.inr ⟨rfl, hy, rfl⟩, ?_⟩
      simp only [MyTime.mk.injEq, and_true, true_and]
      omega
    · rw [if_neg hy]
      refine ⟨a, b, 0, r, y, ha, by omega, Or.inl ⟨rfl, by omega, rfl⟩, ?_⟩
      simp only [MyTime.mk.injEq, and_true, true_and]
      omega
  by_cases h31 : 31 < d
  · refine key 1 (by omega) ?_
    rw [carry_31_mk, if_pos h31, wrap64_eq (m + 1) (by omega), wrap64_eq (d - 31) (by omega)]
    simp only [MyTime.mk.injEq, and_true, true_and]
    omega
  · refine key 0 (by omega) ?_
    rw [carry_31_mk, if_neg h31]
    simp only [MyTime.mk.injEq, and_true, true_and]
    omega

/-- C13, counterexample. From 23:00 on 31 December of the year `2^63 - 1`, one hour on,
the year of the result is `-2^63`: neither the year of `t` nor that year plus one. -/
theorem add_hours_single_pass_counterexample :
    (add_hours ⟨9223372036854775807, 12, 31, 23, 0, 0⟩ 1).Year = -9223372036854775808 ∧
    (add_hours ⟨9223372036854775807, 12, 31, 23, 0, 0⟩ 1).Year ≠ 9223372036854775807 ∧
    (add_hours ⟨9223372036854775807, 12, 31, 23, 0, 0⟩ 1).Year ≠ 9223372036854775807 + 1 ∧
    add_hours ⟨9223372036854775807, 12, 31, 23, 0, 0⟩ 1 =
      ⟨-9223372036854775808, 1, 1, 0, 0, 0⟩ := by
  decide

/-- C13, amended. Each carry rule of `add_hours` fires at most once: for a month in
1..12, a non-negative hour and offset and a day that is a Go value, with `t1` the
timestamp the hour loop leaves (same year and month as `t`; its day is
`t.Day + (t.Hour + h) / 24` when neither that nor `t.Hour + h` exceeds `2^63 - 1`),
the result is reached from `t1` by the 31-day rule or not (`a`), then at most one of
the 30-day and February rules (`b`, taking `r` days), then at most one subtraction of
12 months (`c`); the year is `t.Year`, or `t.Year + 1` in 64-bit arithmetic (which is
`t.Year + 1` when `t.Year < 2^63 - 1`); the day is reduced by at most `31 + 30`. -/
theorem add_hours_single_pass (t : MyTime) (h : Int) (hm1 : 1 ≤ t.Month)
    (hm12 : t.Month ≤ 12) (hH : 0 ≤ t.Hour) (hh : 0 ≤ h) (hday : is_int64 t.Day) :
    ∃ (t1 : MyTime) (a b c r : Int),
      t1 = hour_loop (wrap64 (t.Hour + h)).toNat { t with Hour := wrap64 (t.Hour + h) } ∧
      t1.Year = t.Year ∧ t1.Month = t.Month ∧
      (t.Hour + h ≤ max_int64 → t.Day + (t.Hour + h) / 24 ≤ max_int64 →
        t1.Day = t.Day + (t.Hour + h) / 24) ∧
      ((a = 0 ∧ t1.Day ≤ 31) ∨ (a = 1 ∧ 31 < t1.Day)) ∧
      ((b = 0 ∧ r = 0) ∨
       (b = 1 ∧ r = 30 ∧
         (t.Month + a = 4 ∨ t.Month + a = 6 ∨ t.Month + a = 9 ∨ t.Month + a = 11)) ∨
       (b = 1 ∧ (r = 29 ∨ r = 28) ∧ t.Month + a = 2)) ∧
      ((c = 0 ∧ t.Month + a + b ≤ 12 ∧ (add_hours t h).Year = t.Year) ∨
       (c = 1 ∧ 12 < t.Month + a + b ∧ (add_hours t h).Year = wrap64 (t.Year + 1))) ∧
      (add_hours t h).Month = t.Month + a + b - 12 * c ∧
      (add_hours t h).Day = t1.Day - 31 * a - r ∧
      ((add_hours t h).Year = t.Year ∨ (add_hours t h).Year = wrap64 (t.Year + 1)) ∧
      (is_int64 t.Year → t.Year < max_int64 →
        ((add_hours t h).Year = t.Year ∨ (add_hours t h).Year = t.Year + 1)) ∧
      t1.Day - (31 + 30) ≤ (add_hours t h).Day ∧ (add_hours t h).Day ≤ t1.Day ∧
      1 ≤ (add_hours t h).Month ∧ (add_hours t h).Month ≤ 12 := by
  unfold is_int64 at hday
  have hadd : add_hours t h =
      carry_year (carry_feb_common (carry_feb_leap (carry_30 (carry_31
        (hour_loop (wrap64 (t.Hour + h)).toNat { t with Hour := wrap64 (t.Hour + h) }))))) :=
    rfl
  obtain ⟨fy, fm, _, _, fd⟩ :=
    hour_loop_frame (wrap64 (t.Hour + h)).toNat { t with Hour := wrap64 (t.Hour + h) }
  have hexact : t.Hour + h ≤ max_int64 → t.Day + (t.Hour + h) / 24 ≤ max_int64 →
      (hour_loop (wrap64 (t.Hour + h)).toNat { t with Hour := wrap64 (t.Hour + h) }).Day =
        t.Day + (t.Hour + h) / 24 := by
    intro a1 a2
    unfold max_int64 at a1 a2
    rw [wrap64_eq (t.Hour + h) ⟨by omega, a1⟩,
      hour_loop_fuel _ { t with Hour := t.Hour + h } (by simp only; omega) a1 hday
        (Nat.le_refl _)]
    simp only
    rw [wrap64_eq _ ⟨by omega, a2⟩]
  have fd := fd (by simp only; exact hday)
  simp only at fy fm
  rw [hadd]
  generalize hour_loop (wrap64 (t.Hour + h)).toNat { t with Hour := wrap64 (t.Hour + h) } = t1
    at fy fm fd hexact ⊢
  obtain ⟨y1, m1, d1, hr1, mi1, se1⟩ := t1
  simp only at fy fm fd hexact ⊢
  subst fy fm
  obtain ⟨a, b, c, r, yr, ha, hb, hc, he⟩ :=
    carry_chain_shape t.Year t.Month d1 hr1 mi1 se1 ⟨hm1, hm12⟩ fd
  rw [he]
  simp only
  refine ⟨⟨t.Year, t.Month, d1, hr1, mi1, se1⟩, a, b, c, r, rfl, rfl, rfl, hexact, ha, hb, ?_,
    rfl, rfl,
    ?_, ?_, by simp only; omega, by simp only; omega, by omega, by omega⟩
  · rcases hc with ⟨h1, h2, h3⟩ | ⟨h1, h2, h3⟩
    · exact Or.inl ⟨h1, h2, h3⟩
    · exact Or.inr ⟨h1, h2, h3⟩
  · rcases hc with ⟨_, _, h3⟩ | ⟨_, _, h3⟩
    · exact Or.inl h3
    · exact Or.inr h3
  · intro hy0 hy1
    unfold is_int64 at hy0
    unfold max_int64 at hy1
    rcases hc with ⟨_, _, h3⟩ | ⟨_, _, h3⟩
    · exact Or.inl h3
    · exact Or.inr (by rw [h3, wrap64_eq _ ⟨by omega, by omega⟩])

/-- Witness for C13, amended: midnight on 1 January 2022 plus 2400 hours (100 days)
gives day 42 of March 2022, a day the month does not have. -/
theorem add_hours_single_pass_witness :
    add_hours ⟨2022, 1, 1, 0, 0, 0⟩ 2400 = ⟨2022, 3, 42, 0, 0, 0⟩ ∧
    days_in_month 2022 3 < (add_hours ⟨2022, 1, 1, 0, 0, 0⟩ 2400).Day ∧
    ∃ a b c : Int,
      (add_hours ⟨2022, 1, 1, 0, 0, 0⟩ 2400).Month = 1 + a + b - 12 * c ∧
      (a = 0 ∨ a = 1) ∧ (b = 0 ∨ b = 1) ∧ (c = 0 ∨ c = 1) := by
  have e : add_hours ⟨2022, 1, 1, 0, 0, 0⟩ 2400 = ⟨2022, 3, 42, 0, 0, 0⟩ := by
    rw [add_hours_no_overflow _ _ (by decide) (by decide) (by decide) (by decide)]
    decide
  obtain ⟨t1, a, b, c, r, _, _, _, _, ha, hb, hc, h2, _⟩ :=
    add_hours_single_pass ⟨2022, 1, 1, 0, 0, 0⟩ 2400 (by decide) (by decide) (by decide)
      (by decide) (by decide)
  exact ⟨e, by rw [e]; decide, a, b, c, h2, by omega, by omega, by omega⟩

/-- C14, counterexample. From hour 1 with offset `2^63 - 1` the sum is non-negative but
the 64-bit addition wraps to `-2^63`: the loop does not run and the hour of the result
is `-2^63`, not `(1 + (2^63 - 1)) mod 24 = 8`. -/
theorem add_hours_hour_normalisation_counterexample :
    (0 : Int) ≤ 1 + 9223372036854775807 ∧
    add_hours ⟨2022, 11, 18, 1, 0, 0⟩ 9223372036854775807 =
      ⟨2022, 11, 18, -9223372036854775808, 0, 0⟩ ∧
    (1 + 9223372036854775807 : Int) % 24 = 8 ∧
    (add_hours ⟨2022, 11, 18, 1, 0, 0⟩ 9223372036854775807).Hour ≠
      (1 + 9223372036854775807) % 24 ∧
    ¬ (0 ≤ (add_hours ⟨2022, 11, 18, 1, 0, 0⟩ 9223372036854775807).Hour) := by
  decide

/-- C14, amended. Hour normalisation and frame of `add_hours` when the hour sum does
not overflow, `0 ≤ t.Hour + h ≤ 2^63 - 1`, and the day is a Go value: the loop, run on
any fuel of at least `t.Hour + h`, stops with hour `(t.Hour + h) mod 24` and
`(t.Hour + h) div 24` days added to the day by 64-bit addition (exact when
`t.Day + (t.Hour + h) div 24 ≤ 2^63 - 1`); the month rules run on that timestamp; the
result has that hour, between 0 and 23, and the minute and second of `t`. -/
theorem add_hours_hour_normalisation (t : MyTime) (h : Int) (h0 : 0 ≤ t.Hour + h)
    (h1 : t.Hour + h ≤ max_int64) (hday : is_int64 t.Day) :
    (∀ fuel : Nat, (t.Hour + h).toNat ≤ fuel →
      hour_loop fuel { t with Hour := wrap64 (t.Hour + h) } =
        { t with Hour := (t.Hour + h) % 24,
                 Day := wrap64 (t.Day + (t.Hour + h) / 24) }) ∧
    ¬ ((hour_loop (wrap64 (t.Hour + h)).toNat { t with Hour := wrap64 (t.Hour + h) }).Hour
        ≥ 24) ∧
    add_hours t h =
      carry_year (carry_feb_common (carry_feb_leap (carry_30 (carry_31
        { t with Hour := (t.Hour + h) % 24,
                 Day := wrap64 (t.Day + (t.Hour + h) / 24) })))) ∧
    (t.Day + (t.Hour + h) / 24 ≤ max_int64 →
      wrap64 (t.Day + (t.Hour + h) / 24) = t.Day + (t.Hour + h) / 24) ∧
    (add_hours t h).Hour = (t.Hour + h) % 24 ∧
    0 ≤ (add_hours t h).Hour ∧ (add_hours t h).Hour ≤ 23 ∧
    (add_hours t h).Minute = t.Minute ∧ (add_hours t h).Second = t.Second := by
  unfold max_int64 at h1
  unfold is_int64 at hday
  have hw : wrap64 (t.Hour + h) = t.Hour + h := wrap64_eq _ ⟨by omega, h1⟩
  have hloop : ∀ fuel : Nat, (t.Hour + h).toNat ≤ fuel →
      hour_loop fuel { t with Hour := wrap64 (t.Hour + h) } =
        { t with Hour := (t.Hour + h) % 24,
                 Day := wrap64 (t.Day + (t.Hour + h) / 24) } := by
    intro fuel hf
    rw [hw]
    exact hour_loop_fuel fuel { t with Hour := t.Hour + h } h0 h1 hday hf
  obtain ⟨hhour, hmin, hsec⟩ := add_hours_frame t h h0 h1 hday
  refine ⟨hloop, ?_, add_hours_nonneg t h h0 h1 hday, ?_, hhour, ?_, ?_, hmin, hsec⟩
  · have hl := hloop (t.Hour + h).toNat (Nat.le_refl _)
    rw [hw] at hl ⊢
    rw [hl]
    simp only
    omega
  · intro hd1
    unfold max_int64 at hd1
    exact wrap64_eq _ ⟨by omega, hd1⟩
  · omega
  · omega

/-- Witness for C14, amended: 23:00 plus 50 hours is 01:00 three days on, and 23:00
minus 5 hours is 18:00 the same day. -/
theorem add_hours_hour_normalisation_witness :
    add_hours ⟨2022, 11, 18, 23, 7, 9⟩ 50 = ⟨2022, 11, 21, 1, 7, 9⟩ ∧
    (add_hours ⟨2022, 11, 18, 23, 7, 9⟩ 50).Hour = (23 + 50) % 24 ∧
    (add_hours ⟨2022, 11, 18, 23, 7, 9⟩ (-5)).Hour = 18 :=
  ⟨by decide,
   (add_hours_hour_normalisation ⟨2022, 11, 18, 23, 7, 9⟩ 50 (by decide) (by decide)
      (by decide)).2.2.2.2.1,
   (add_hours_hour_normalisation ⟨2022, 11, 18, 23, 7, 9⟩ (-5) (by decide) (by decide)
      (by decide)).2.2.2.2.1⟩

/-! ## Validity inside the forecast window -/

/-- C15. Calendar validity is preserved inside the forecast window: for a valid
timestamp `t` and `0 ≤ h ≤ 192`, `add_hours t h` is a valid timestamp (month in 1..12,
day within the true length of that month in that year, hour in 0..23). -/
theorem add_hours_preserves_validity (t : MyTime) (h : Int) (hv : valid_time t)
    (h0 : 0 ≤ h) (h192 : h ≤ 192) : valid_time (add_hours t h) := by
  obtain ⟨hm1, hm12, hd1, hdm, hh0, hh23⟩ := hv
  have hb := days_in_month_bounds t.Year t.Month
  obtain ⟨n, hn⟩ : ∃ n : Nat, (t.Hour + h) / 24 = n := ⟨((t.Hour + h) / 24).toNat, by omega⟩
  have hn8 : n ≤ 8 := by omega
  have hr0 : 0 ≤ (t.Hour + h) % 24 := by omega
  have hr23 : (t.Hour + h) % 24 ≤ 23 := by omega
  rw [add_hours_no_overflow t h (by omega) (by omega) (by omega) (by omega), hn]
  obtain ⟨y, m, d, hr, mi, se⟩ := t
  simp only at hm1 hm12 hd1 hdm hh0 hh23 hn hr0 hr23 hb ⊢
  by_cases hin : d + n ≤ days_in_month y m
  · rw [carry_within_month y m _ _ mi se hm12 hin]
    exact ⟨hm1, hm12, by simp only; omega, hin, hr0, hr23⟩
  · by_cases h31 : 31 < d + n
    · rw [carry_over_31 y m _ _ mi se hm1 hm12 h31 (by omega)]
      by_cases h12 : m < 12
      · rw [if_pos h12]
        have hb1 := days_in_month_bounds y (m + 1)
        exact ⟨by simp only; omega, by simp only; omega, by simp only; omega,
          by simp only; omega, hr0, hr23⟩
      · rw [if_neg h12]
        have hb1 := days_in_month_bounds (wrap64 (y + 1)) 1
        exact ⟨by simp only; omega, by simp only; omega, by simp only; omega,
          by simp only; omega, hr0, hr23⟩
    · rcases days_in_month_cases y m with ⟨h2, _, hdim⟩ | ⟨h2, _, hdim⟩ | ⟨h30, hdim⟩ |
        ⟨_, _, hdim⟩
      · subst h2
        have hb1 := days_in_month_bounds y 3
        rw [carry_out_of_feb y _ _ mi se (by omega) (by omega)]
        exact ⟨by simp only; omega, by simp only; omega, by simp only; omega,
          by simp only; omega, hr0, hr23⟩
      · subst h2
        have hb1 := days_in_month_bounds y 3
        rw [carry_out_of_feb y _ _ mi se (by omega) (by omega)]
        exact ⟨by simp only; omega, by simp only; omega, by simp only; omega,
          by simp only; omega, hr0, hr23⟩
      · have hb1 := days_in_month_bounds y (m + 1)
        rw [carry_out_of_30 y m _ _ mi se h30 (by omega)]
        exact ⟨by simp only; omega, by simp only; omega, by simp only; omega,
          by simp only; omega, hr0, hr23⟩
      · omega

/-- Witness for C15: 12:00 on 30 April 2022 plus 48 hours gives 1 May 2022, a valid
date (the calendar date is 2 May), and 23:00 on 31 December 2022 plus 192 hours gives
8 January 2023. -/
theorem add_hours_preserves_validity_witness :
    valid_time (add_hours ⟨2022, 4, 30, 12, 0, 0⟩ 48) ∧
    add_hours ⟨2022, 4, 30, 12, 0, 0⟩ 48 = ⟨2022, 5, 1, 12, 0, 0⟩ ∧
    valid_time (add_hours ⟨2022, 12, 31, 23, 0, 0⟩ 192) ∧
    add_hours ⟨2022, 12, 31, 23, 0, 0⟩ 192 = ⟨2023, 1, 8, 23, 0, 0⟩ :=
  ⟨add_hours_preserves_validity ⟨2022, 4, 30, 12, 0, 0⟩ 48 (by decide) (by decide) (by decide),
   by decide,
   add_hours_preserves_validity ⟨2022, 12, 31, 23, 0, 0⟩ 192 (by decide) (by decide)
     (by decide),
   by decide⟩

/-- C16. `add_hours` is not injective in the offset inside the forecast window: from
the valid timestamp 12:00 on 30 April 2022 the offsets 24 and 48 both give 12:00 on
1 May 2022, and `combine_weather_data` on a forecast initialised then, with offsets 24
and 48, emits two records with the same date-time. -/
theorem add_hours_not_injective :
    valid_time ⟨2022, 4, 30, 12, 0, 0⟩ ∧
    add_hours ⟨2022, 4, 30, 12, 0, 0⟩ 24 = ⟨2022, 5, 1, 12, 0, 0⟩ ∧
    add_hours ⟨2022, 4, 30, 12, 0, 0⟩ 48 = ⟨2022, 5, 1, 12, 0, 0⟩ ∧
    (∃ (t : MyTime) (h1 h2 : Int), valid_time t ∧ 0 ≤ h1 ∧ h1 < h2 ∧ h2 ≤ 191 ∧
      add_hours t h1 = add_hours t h2) ∧
    ¬ Function.Injective (add_hours ⟨2022, 4, 30, 12, 0, 0⟩) ∧
    civil_april.DataSeries.length = meteo_april.DataSeries.length ∧
    meteo_april.DataSeries.map (fun m => m.Timepoint) = [24, 48] ∧
    (combine_weather_data civil_april meteo_april).map
        (fun w => w.DataSeries.map (fun r => r.Datetime)) =
      .ok [str "05/01/2022 12:00:00", str "05/01/2022 12:00:00"] := by
  have e1 : add_hours ⟨2022, 4, 30, 12, 0, 0⟩ 24 = ⟨2022, 5, 1, 12, 0, 0⟩ := by decide
  have e2 : add_hours ⟨2022, 4, 30, 12, 0, 0⟩ 48 = ⟨2022, 5, 1, 12, 0, 0⟩ := by decide
  refine ⟨by decide, e1, e2, ⟨⟨2022, 4, 30, 12, 0, 0⟩, 24, 48, by decide, by decide,
    by decide, by decide, e1.trans e2.symm⟩, ?_, by decide, by decide, by decide⟩
  intro hinj
  have h := hinj (e1.trans e2.symm)
  exact absurd h (by decide)

end Weather
